import Mathlib

/-!
Verification development for the social-media video downloader
(`app.py` / `models.py`): a shallow embedding of the download
orchestration and progress-tracking subsystem, with theorems about its
claimed properties.

Conventions used throughout:
* Python dicts holding download progress become the `Prog` structure and
  an association-list registry.
* Python strings are Lean `String`; operations such as `str.strip()` or
  `split('p')[0]` are translated to explicit `List Char` manipulations.
* Machine-external effects (the pytubefix / yt-dlp backends, the
  database) are oracles: their outcomes are inputs to the model.
* Exceptions are modelled with `Except` / `Option String` outcomes; a
  `try/except` block becomes a `match` on the oracle outcome.
-/

namespace Svd

/-! ### A small regex engine for the URL patterns of the source

The source validates URLs with `re.match` / `re.search` over a fixed set
of patterns.  Every pattern uses only literals, optional groups,
alternation, single-character classes, `+` applied to a class or `.`,
and `{n}` applied to a class, so the following pattern language covers
them exactly. -/

/-- Patterns: the fragment of regular expressions used by the source. -/
inductive Pat where
  | lit (l : List Char)              -- literal character sequence
  | cls (t : Char → Bool)            -- one character of a class
  | seq (p q : Pat)
  | alt (p q : Pat)
  | opt (p : Pat)                    -- `(...)?`
  | plus (t : Char → Bool)           -- `[...]+` / `.+`
  | rep (t : Char → Bool) (n : Nat)  -- `[...]{n}`

/-- Consume a literal prefix, returning the remainder. -/
def dropLit : List Char → List Char → Option (List Char)
  | [], s => some s
  | _ :: _, [] => none
  | c :: cs, x :: xs => if x = c then dropLit cs xs else none

/-- All remainders after consuming one-or-more characters of a class. -/
def plusTails (t : Char → Bool) : List Char → List (List Char)
  | [] => []
  | c :: cs => if t c then cs :: plusTails t cs else []

/-- Remainder after consuming exactly `n` characters of a class. -/
def repTail (t : Char → Bool) : Nat → List Char → Option (List Char)
  | 0, s => some s
  | _ + 1, [] => none
  | n + 1, c :: cs => if t c then repTail t n cs else none

/-- Backtracking matcher: all remainders after matching `p` at the front. -/
def pmatch : Pat → List Char → List (List Char)
  | .lit l, s => match dropLit l s with | some s2 => [s2] | none => []
  | .cls _, [] => []
  | .cls t, c :: cs => if t c then [cs] else []
  | .seq p q, s => (pmatch p s).flatMap (pmatch q)
  | .alt p q, s => pmatch p s ++ pmatch q s
  | .opt p, s => pmatch p s ++ [s]
  | .plus t, s => plusTails t s
  | .rep t n, s => match repTail t n s with | some s2 => [s2] | none => []

/-- `re.match(pattern, s)` truth value: match anchored at the start
(a prefix match; trailing characters are allowed). -/
def reMatch (p : Pat) (s : String) : Bool := !(pmatch p s.data).isEmpty

/-- Literal-string pattern. -/
def strLit (s : String) : Pat := .lit s.data

/-- `(https?://)?` -/
def httpScheme : Pat := .opt (.seq (strLit "http") (.seq (.opt (strLit "s")) (strLit "://")))

/-- `(www\.)?` -/
def wwwOpt : Pat := .opt (strLit "www.")

/-- `[A-Za-z0-9_-]` -/
def isWordDash (c : Char) : Bool := c.isAlphanum || c = '_' || c = '-'

/-- `[A-Za-z0-9_.]` -/
def isWordDot (c : Char) : Bool := c.isAlphanum || c = '_' || c = '.'

/-- `[0-9]` -/
def isDigitC (c : Char) : Bool := c.isDigit

/-- `[^&=%\?]` -/
def notVidEnd (c : Char) : Bool := !(c = '&' || c = '=' || c = '%' || c = '?')

/-- `[^/]` -/
def notSlash (c : Char) : Bool := c ≠ '/'

/-- `.` (any character but a newline) -/
def anyChar (c : Char) : Bool := c ≠ '\n'

/-- The YouTube URL pattern of `is_valid_youtube_url`:
`(https?://)?(www\.)?(youtube|youtu|youtube-nocookie)\.(com|be)/(watch\?v=|embed/|v/|.+\?v=)?([^&=%\?]{11})` -/
def youtube_regex : Pat :=
  .seq httpScheme (.seq wwwOpt
    (.seq (.alt (strLit "youtube") (.alt (strLit "youtu") (strLit "youtube-nocookie")))
      (.seq (strLit ".") (.seq (.alt (strLit "com") (strLit "be"))
        (.seq (strLit "/")
          (.seq (.opt (.alt (strLit "watch?v=") (.alt (strLit "embed/")
                  (.alt (strLit "v/") (.seq (.plus anyChar) (strLit "?v="))))))
            (.rep notVidEnd 11)))))))

/-- `is_valid_youtube_url` from the source. -/
def is_valid_youtube_url (url : String) : Bool := reMatch youtube_regex url

/-- The four patterns of `is_valid_instagram_url` (posts, reels, IGTV, stories). -/
def instagram_patterns : List Pat :=
  [ .seq httpScheme (.seq wwwOpt (.seq (strLit "instagram.com/p/") (.plus isWordDash)))
  , .seq httpScheme (.seq wwwOpt (.seq (strLit "instagram.com/reel/") (.plus isWordDash)))
  , .seq httpScheme (.seq wwwOpt (.seq (strLit "instagram.com/tv/") (.plus isWordDash)))
  , .seq httpScheme (.seq wwwOpt (.seq (strLit "instagram.com/stories/")
      (.seq (.plus isWordDot) (.seq (strLit "/") (.plus isDigitC))))) ]

/-- `is_valid_instagram_url` from the source. -/
def is_valid_instagram_url (url : String) : Bool :=
  instagram_patterns.any (fun p => reMatch p url)

/-- The four patterns of `is_valid_facebook_url`. -/
def facebook_patterns : List Pat :=
  [ .seq httpScheme (.seq wwwOpt (.seq (strLit "facebook.com/")
      (.seq (.plus anyChar) (.seq (strLit "/videos/") (.plus isDigitC)))))
  , .seq httpScheme (.seq wwwOpt (.seq (strLit "facebook.com/watch/?v=") (.plus isDigitC)))
  , .seq httpScheme (.seq wwwOpt (.seq (strLit "facebook.com/")
      (.seq (.plus notSlash) (.seq (strLit "/videos/") (.plus isDigitC)))))
  , .seq httpScheme (.seq wwwOpt (.seq (strLit "fb.watch/") (.plus isWordDash))) ]

/-- `is_valid_facebook_url` from the source. -/
def is_valid_facebook_url (url : String) : Bool :=
  facebook_patterns.any (fun p => reMatch p url)

/-- Supported platforms (`detect_platform` returns a string or `None`). -/
inductive Platform where
  | youtube
  | instagram
  | facebook
deriving DecidableEq

/-- `detect_platform` from the source: first-match-wins over the three
validators; unsupported URLs yield `none`. -/
def detect_platform (url : String) : Option Platform :=
  if is_valid_youtube_url url then some .youtube
  else if is_valid_instagram_url url then some .instagram
  else if is_valid_facebook_url url then some .facebook
  else none

/-! ### `extract_video_id`

Each pattern is a literal followed by a captured one-or-more class
(`([^&]+)` / `([^?]+)`), searched with `re.search`: the capture is the
greedy class run after the first occurrence of the literal. -/

/-- Search for `lit` then capture the (non-empty, greedy) class run after it. -/
def searchCapture (l : List Char) (t : Char → Bool) : List Char → Option (List Char)
  | [] => none
  | c :: cs =>
    match dropLit l (c :: cs) with
    | some s2 =>
      let run := s2.takeWhile t
      if run.isEmpty then searchCapture l t cs else some run
    | none => searchCapture l t cs

/-- `extract_video_id` from the source: four `re.search` patterns, first hit wins. -/
def extract_video_id (url : String) : Option String :=
  match searchCapture "youtube.com/watch?v=".data (fun c => c ≠ '&') url.data with
  | some r => some r.asString
  | none =>
    match searchCapture "youtu.be/".data (fun c => c ≠ '?') url.data with
    | some r => some r.asString
    | none =>
      match searchCapture "youtube.com/embed/".data (fun c => c ≠ '?') url.data with
      | some r => some r.asString
      | none =>
        match searchCapture "youtube.com/v/".data (fun c => c ≠ '?') url.data with
        | some r => some r.asString
        | none => none

/-! ### Python-string helpers -/

/-- Python truthiness of a string (`if not url`): non-empty. -/
def truthyStr (s : String) : Bool := s ≠ ""

/-- Python truthiness of an optional string field (`data.get(...)`):
present and non-empty. -/
def truthyOpt : Option String → Bool
  | some s => s ≠ ""
  | none => false

/-- `x or default` for an optional string (used for `stream.resolution or 'audio'`). -/
def pyOr (o : Option String) (d : String) : String :=
  match o with
  | some s => if s = "" then d else s
  | none => d

/-- Whitespace stripped by Python `str.strip()`. -/
def isSpaceC (c : Char) : Bool := c = ' ' || c = '\t' || c = '\n' || c = '\r'

/-- Python `str.strip()`. -/
def pyStrip (s : String) : String :=
  (((s.data.dropWhile isSpaceC).reverse.dropWhile isSpaceC).reverse).asString

/-- `os.path.basename`: the part after the last `/`. -/
def pyBasename (s : String) : String :=
  ((s.data.reverse.takeWhile (fun c => c ≠ '/')).reverse).asString

/-! ### Progress registry

`download_progress` is a process-wide dict mapping a download id to a
progress dict.  The progress dict always carries `progress` and
`status`; the remaining keys are added later by the background task, so
they are `Option` fields here. -/

/-- The status strings written into a progress dict
(`'not_found'` is the default served for an unknown handle). -/
inductive Status where
  | starting
  | downloading
  | finished
  | completed
  | error
  | not_found
deriving DecidableEq

/-- One progress dict (`download_progress[download_id]`). -/
structure Prog where
  progress : Nat
  status : Status
  error : Option String := none
  filename : Option String := none
  filepath : Option String := none
  record_id : Option Nat := none
deriving DecidableEq

/-- The entry inserted by the `/download` handler:
`{'progress': 0, 'status': 'starting'}`. -/
def startingProg : Prog := { progress := 0, status := .starting }

/-- The in-memory registry, as an association list with
first-match lookup (newest binding first, like dict assignment). -/
abbrev Registry := List (String × Prog)

/-- Dict assignment `download_progress[k] = v`. -/
def rset (reg : Registry) (k : String) (v : Prog) : Registry := (k, v) :: reg

/-- Dict lookup `download_progress.get(k)`. -/
def rget (reg : Registry) (k : String) : Option Prog :=
  (reg.find? (fun kv => kv.1 == k)).map (·.2)

/-! ### The `/download` request handler (`download_video`) -/

/-- An HTTP response of the `/download` endpoint. -/
inductive Resp where
  | ok (download_id : String) (message : String)
  | err (code : Nat) (message : String)
deriving DecidableEq

/-- Result of one `/download` call: the registry afterwards, the
response, and whether a background task was spawned. -/
structure StartResult where
  registry : Registry
  resp : Resp
  thread_started : Bool
deriving DecidableEq

/-- The download id allocated at integer timestamp `now`:
`f"download_{int(time.time())}"`. -/
def downloadIdAt (now : Nat) : String := "download_" ++ Nat.repr now

/-- The `/download` endpoint (`download_video`, lines 489-707), up to the
launch of the background task.  `now` is `int(time.time())`.  The
background task itself is modelled separately by `download_thread`. -/
def download_video (reg : Registry) (url0 : String) (itag format_id : Option String)
    (now : Nat) : StartResult :=
  let url := pyStrip url0
  if !truthyStr url || (!truthyOpt itag && !truthyOpt format_id) then
    { registry := reg, resp := .err 400 "Missing URL or quality selection",
      thread_started := false }
  else
    match detect_platform url with
    | none => { registry := reg, resp := .err 400 "Invalid video URL", thread_started := false }
    | some _ =>
      let download_id := downloadIdAt now
      let reg2 := rset reg download_id startingProg
      { registry := reg2, resp := .ok download_id "Download started", thread_started := true }

/-- The `/download_progress/<download_id>` endpoint: always answers; an
unknown handle yields the `{'status': 'not_found'}` dict (whose only key
is `status`; the other fields of the returned `Prog` are padding). -/
def get_download_progress (reg : Registry) (download_id : String) : Prog :=
  (rget reg download_id).getD { progress := 0, status := .not_found }

/-! ### The `/download_file/<download_id>` endpoint -/

/-- Responses of `/download_file`. -/
inductive FileResp where
  | notFound (message : String)                                -- 404
  | served (filepath : String) (download_name : Option String)
      (mimetype : String) (as_attachment : Bool)               -- send_file
  | serveError (message : String)                              -- 500
deriving DecidableEq

/-- `download_file` (lines 715-738).  `fileExists` is
`os.path.exists`; `send_ok` is whether `send_file` itself succeeds. -/
def download_file (reg : Registry) (fileExists : String → Bool) (send_ok : Bool)
    (download_id : String) : FileResp :=
  match rget reg download_id with
  | none => .notFound "Download not completed or not found"
  | some p =>
    if p.status ≠ .completed then .notFound "Download not completed or not found"
    else if !truthyOpt p.filepath then .notFound "File not found"
    else
      let fp := (p.filepath).getD ""
      if !fileExists fp then .notFound "File not found"
      else if send_ok then .served fp p.filename "application/octet-stream" true
      else .serveError "Error serving file"

/-! ### Quality options for Instagram/Facebook (`get_social_media_info`) -/

/-- One raw yt-dlp format dict (the keys read by the source). -/
structure Fmt where
  format_id : String
  vcodec : Option String := none
  acodec : Option String := none
  height : Option Nat := none
  fps : Option Nat := none
  filesize : Option Nat := none
  abr : Option Nat := none
deriving DecidableEq

/-- One resolved quality option of the Instagram/Facebook path
(`{'format_id', 'quality', 'type', 'filesize', 'platform'}`). -/
structure SocQOpt where
  format_id : String
  quality : String
  type : String
  filesize : Nat
  platform : Platform
deriving DecidableEq

/-- `[f for f in formats if f.get('vcodec') != 'none']` (a missing
`vcodec` also counts as video, as in the source). -/
def videoFormatsOf (formats : List Fmt) : List Fmt :=
  formats.filter (fun f => f.vcodec != some "none")

/-- `[f for f in formats if f.get('acodec') != 'none' and f.get('vcodec') == 'none']` -/
def audioFormatsOf (formats : List Fmt) : List Fmt :=
  formats.filter (fun f => f.acodec != some "none" && f.vcodec == some "none")

/-- Truthy `fmt.get('height')`: present and non-zero. -/
def heightKey (f : Fmt) : Option Nat :=
  match f.height with
  | some h => if h ≠ 0 then some h else none
  | none => none

/-- `f"{height}p"` plus `f" ({fps}fps)"` when `fmt.get('fps')` is truthy. -/
def videoQualityLabel (f : Fmt) (h : Nat) : String :=
  Nat.repr h ++ "p" ++
    (match f.fps with
     | some fps => if fps ≠ 0 then " (" ++ Nat.repr fps ++ "fps)" else ""
     | none => "")

/-- The video quality dict appended for a format with truthy height `h`. -/
def mkVideoOpt (platform : Platform) (f : Fmt) (h : Nat) : SocQOpt :=
  { format_id := f.format_id, quality := videoQualityLabel f h, type := "video",
    filesize := f.filesize.getD 0, platform := platform }

/-- The `seen`-set deduplication loop shared by both metadata resolvers:
walk the list, keep the first item per key, skip items whose key is
falsy or already seen.  (`key` returns `none` for a falsy key.) -/
def dedupLoop [DecidableEq κ] (key : α → Option κ) (mk : α → κ → β) :
    List α → List κ → List β
  | [], _ => []
  | f :: rest, seen =>
    match key f with
    | some k =>
      if k ∈ seen then dedupLoop key mk rest seen
      else mk f k :: dedupLoop key mk rest (k :: seen)
    | none => dedupLoop key mk rest seen

/-- The keys newly added to `seen` by `dedupLoop`, in first-seen order. -/
def newKeys [DecidableEq κ] (key : α → Option κ) : List α → List κ → List κ
  | [], _ => []
  | f :: rest, seen =>
    match key f with
    | some k =>
      if k ∈ seen then newKeys key rest seen else k :: newKeys key rest (k :: seen)
    | none => newKeys key rest seen

/-- The `seen` set after running `dedupLoop`. -/
def seenAfter [DecidableEq κ] (key : α → Option κ) : List α → List κ → List κ
  | [], seen => seen
  | f :: rest, seen =>
    match key f with
    | some k =>
      if k ∈ seen then seenAfter key rest seen else seenAfter key rest (k :: seen)
    | none => seenAfter key rest seen

/-- Python `max(xs, key=...)`: first maximal element (strictly greater
keys replace the current best). -/
def pymaxBy (key : α → Nat) : α → List α → α
  | b, [] => b
  | b, x :: rest => pymaxBy key (if key x > key b then x else b) rest

/-- The single best-audio dict of the Instagram/Facebook path. -/
def mkAudioOpt (platform : Platform) (f : Fmt) : SocQOpt :=
  { format_id := f.format_id, quality := "Audio Only", type := "audio",
    filesize := f.filesize.getD 0, platform := platform }

/-- `int(s)` on a digit string (`none` when `int` would raise). -/
def digitsToNat (l : List Char) : Option Nat :=
  if !l.isEmpty && l.all isDigitC then
    some (l.foldl (fun a c => 10 * a + (c.toNat - 48)) 0)
  else none

/-- The sort key of line 177:
`int(x['quality'].split('p')[0]) if 'p' in x['quality'] else 0`.
`split('p')[0]` is the prefix before the first `'p'`; on this code path
video labels always start with the decimal height, so the `getD 0`
fallback (Python would raise) is unreachable. -/
def socialSortKey (q : SocQOpt) : Nat :=
  if q.quality.data.any (fun c => c = 'p') then
    (digitsToNat (q.quality.data.takeWhile (fun c => c ≠ 'p'))).getD 0
  else 0

/-- The quality-option list built by `get_social_media_info`
(lines 140-177): video dedup by height, one best-audio entry, then a
stable sort by descending numeric quality. -/
def socialQualityOptions (platform : Platform) (formats : List Fmt) : List SocQOpt :=
  let video_formats := videoFormatsOf formats
  let audio_formats := audioFormatsOf formats
  let video_opts := dedupLoop heightKey (mkVideoOpt platform) video_formats []
  let quality_options := video_opts ++
    (match audio_formats with
     | [] => []
     | a :: rest => [mkAudioOpt platform (pymaxBy (fun f => f.abr.getD 0) a rest)])
  quality_options.mergeSort (fun a b => decide (socialSortKey b ≤ socialSortKey a))

/-- A raw yt-dlp metadata response (the keys read by the source). -/
structure RawInfo where
  title : Option String := none
  duration : Option Nat := none
  view_count : Option Nat := none
  thumbnail : Option String := none
  uploader : Option String := none
  formats : List Fmt := []
deriving DecidableEq

/-- The `video_info` dict returned by `get_social_media_info`. -/
structure SocialInfo where
  title : String
  length : Nat
  views : Nat
  thumbnail_url : String
  author : String
  quality_options : List SocQOpt
  platform : Platform
deriving DecidableEq

/-- `get_social_media_info` (lines 119-197).  `extract` is the outcome
of `ydl.extract_info` (the external backend); the source returns
`(info, None)` or `(None, message)` tuples, modelled as `Except`. -/
def get_social_media_info (url : String) (extract : Except String RawInfo) :
    Except String SocialInfo :=
  match detect_platform url with
  | none => .error "Unsupported URL format"
  | some platform =>
    match extract with
    | .error e => .error ("Could not extract video information: " ++ e)
    | .ok info =>
      .ok { title := info.title.getD "Unknown Title"
          , length := info.duration.getD 0
          , views := info.view_count.getD 0
          , thumbnail_url := info.thumbnail.getD ""
          , author := info.uploader.getD "Unknown"
          , quality_options := socialQualityOptions platform info.formats
          , platform := platform }

/-! ### Quality options for YouTube (`get_video_info`, lines 244-310) -/

/-- A pytubefix stream (the attributes read by the source). -/
structure PStream where
  itag : Nat
  resolution : Option String := none
  filesize : Option Nat := none
  subtype : Option String := none
  abr : Option String := none
deriving DecidableEq

/-- One resolved YouTube quality option
(`{'itag', 'quality', 'type', 'filesize', 'format'}`). -/
structure YtQOpt where
  itag : Nat
  quality : String
  type : String
  filesize : Nat
  format : Option String
deriving DecidableEq

/-- Truthy `stream.resolution`. -/
def resKey (s : PStream) : Option String :=
  match s.resolution with
  | some r => if r ≠ "" then some r else none
  | none => none

/-- Progressive entry (lines 257-264). -/
def mkProgressiveOpt (s : PStream) (r : String) : YtQOpt :=
  { itag := s.itag, quality := r ++ " (MP4)", type := "video",
    filesize := s.filesize.getD 0, format := some "progressive" }

/-- Adaptive entry (lines 269-277). -/
def mkAdaptiveOpt (s : PStream) (r : String) : YtQOpt :=
  { itag := s.itag, quality := r ++ " (High Quality)", type := "video_adaptive",
    filesize := s.filesize.getD 0, format := some "adaptive" }

/-- Audio entry with bitrate label (lines 283-290). -/
def mkAudioQual (s : PStream) (abr : String) : YtQOpt :=
  { itag := s.itag, quality := "Audio (" ++ abr ++ ")", type := "audio",
    filesize := s.filesize.getD 0, format := s.subtype }

/-- The audio sort key of line 295:
`int(x['quality'].split('(')[1].split('k')[0]) if 'k' in x['quality'] else 0`.
The labels contain a single `'('`, so `split('(')[1]` is the segment
after it, and `split('k')[0]` its prefix before the first `'k'`. -/
def ytAudioKey (q : YtQOpt) : Nat :=
  if q.quality.data.any (fun c => c = 'k') then
    (digitsToNat (((q.quality.data.dropWhile (fun c => c ≠ '(')).drop 1).takeWhile
        (fun c => c ≠ 'k'))).getD 0
  else 0

/-- The YouTube quality-option list (lines 244-310): progressive then
adaptive video streams deduplicated by resolution through one shared
`seen_resolutions` set, then the top-3 audio streams by bitrate (or a
single fallback audio entry). -/
def ytQualityOptions (progressive adaptive audio : List PStream) : List YtQOpt :=
  let progOpts := dedupLoop resKey mkProgressiveOpt progressive []
  let seen1 := seenAfter resKey progressive []
  let adapOpts := dedupLoop resKey mkAdaptiveOpt adaptive seen1
  let audio_qualities :=
    (audio.filter (fun s => truthyOpt s.abr)).map (fun s => mkAudioQual s (s.abr.getD ""))
  let audioTop :=
    if !audio_qualities.isEmpty then
      (audio_qualities.mergeSort (fun a b => decide (ytAudioKey b ≤ ytAudioKey a))).take 3
    else []
  let fallbackAudio :=
    if audio_qualities.isEmpty && !audio.isEmpty then
      match audio with
      | [] => []
      | s :: _ => [{ itag := s.itag, quality := "Audio Only", type := "audio",
                     filesize := s.filesize.getD 0, format := some (pyOr s.subtype "mp4") }]
    else []
  progOpts ++ adapOpts ++ audioTop ++ fallbackAudio

/-! ### The background task (`download_thread`, lines 516-698)

The thread's writes to `download_progress[download_id]` are modelled as
a trace: the list of successive states of the progress dict, one entry
per assignment, starting from the dict inserted by the request handler.
External outcomes (backend calls, database commits) are supplied by an
`Oracle`; an oracle field `commitN : Option String` of value `some e`
means that commit raised an exception with message `e`. -/

/-- The in-memory `DownloadHistory` row (`models.py`).  The two
timestamp columns set by the task are modelled as Booleans recording
whether they were assigned. -/
structure HistRec where
  video_title : String
  video_url : String
  video_id : Option String
  author : String
  duration : Nat
  views : Nat
  thumbnail_url : String
  quality : String
  download_type : String
  file_size : Option Nat
  itag : Option String
  user_ip : String
  user_agent : String
  session_id : String
  platform : Platform
  download_started : Bool := false
  status : String := "initiated"
  error_message : Option String := none
  download_completed : Bool := false
deriving DecidableEq

/-- The pytubefix `YouTube` object (attributes read by the source). -/
structure YtObj where
  title : String
  author : String
  length : Nat
  views : Nat
  thumbnail_url : String
deriving DecidableEq

/-- The pytubefix stream returned by `get_by_itag`. -/
structure StreamObj where
  resolution : Option String := none
  filesize : Nat := 0
  subtype : String := "mp4"
deriving DecidableEq

/-- One yt-dlp progress-hook invocation (lines 447-469).
`dl` is a `downloading` event with known `total_bytes`; `dlStr` a
`downloading` event whose percentage comes from `_percent_str`
(`none` when it cannot be parsed, in which case nothing is written);
`fin` is the `finished` event. -/
inductive HookEvent where
  | dl (total downloaded : Nat)
  | dlStr (percent : Option Nat)
  | fin (filename : String)
deriving DecidableEq

/-- The dict writes performed by one hook invocation, from state `p`.
For `dl`, the percent is `int(downloaded / total * 100)`. -/
def hookWrites (p : Prog) : HookEvent → List Prog
  | .dl total downloaded =>
    let percent := downloaded * 100 / total
    [ { p with progress := percent }, { p with progress := percent, status := .downloading } ]
  | .dlStr (some n) => [ { p with progress := n } ]
  | .dlStr none => []
  | .fin f =>
    [ { p with progress := 100 }
    , { p with progress := 100, status := .finished }
    , { p with progress := 100, status := .finished, filename := some f } ]

/-- The trace of writes of a whole hook-event sequence. -/
def runHooks (p : Prog) : List HookEvent → List Prog
  | [] => []
  | e :: rest =>
    let ws := hookWrites p e
    ws ++ runHooks (ws.getLastD p) rest

/-- yt-dlp delivers zero or more `downloading` events and then at most
one final `finished` event (the documented hook contract assumed of the
external backend). -/
def hookWF : List HookEvent → Bool
  | [] => true
  | .fin _ :: rest => rest.isEmpty
  | _ :: rest => hookWF rest

/-- The writes of the pytubefix progress callback (lines 618-623), one
per delivered `bytes_remaining` value; the percent is
`int((total - remaining) / total * 100)`. -/
def callbackWrites (total : Nat) (p : Prog) : List Nat → List Prog
  | [] => []
  | rem :: rest =>
    let p2 := { p with progress := (total - rem) * 100 / total }
    p2 :: callbackWrites total p2 rest

/-- The two writes of an error exit:
`...['status'] = 'error'` then `...['error'] = msg`. -/
def errWrites (p : Prog) (msg : String) : List Prog :=
  [ { p with status := .error }, { p with status := .error, error := some msg } ]

/-- `tempfile.gettempdir()`. -/
def tempDir : String := "/tmp"

/-- `re.sub(r'[<>:"/\\|?*]', '', filename)`. -/
def sanitizeFilename (s : String) : String :=
  (s.data.filter (fun c =>
    !(c = '<' || c = '>' || c = ':' || c = '"' || c = '/' || c = '\\' ||
      c = '|' || c = '?' || c = '*'))).asString

/-- External outcomes consumed by one run of the background task.
`commit1` is the commit of the new history row (line 602); `commit2` the
finalize commit (line 673, which also stands for the commits of the
popular-video / stats upsert in the same step); `commitFail` the
best-effort commit inside the failure handler (line 690). -/
structure Oracle where
  ytInit : Except String YtObj
  stream : Option StreamObj
  extract : Except String RawInfo
  commit1 : Option String
  hooks : List HookEvent
  socialDl : Except String String
  ytCallbacks : List Nat
  ytDl : Option String
  commit2 : Option String
  commitFail : Option String

/-- What one run of the background task leaves behind: the write trace
of its progress dict and the final in-memory history row (`none` when
the row was never constructed). -/
structure ThreadOut where
  trace : List Prog
  record : Option HistRec
deriving DecidableEq

/-- The `DownloadHistory` row constructed on the social path
(lines 582-600): status `downloading`, started timestamp set. -/
def socialRecord (pf : Platform) (url : String) (format_id : Option String)
    (user_ip user_agent session_id : String) (video_info : SocialInfo)
    (selected_format : SocQOpt) : HistRec :=
  { video_title := video_info.title, video_url := url,
    video_id := some (if url.data.any (fun c => c = '/') then pyBasename url else url),
    author := video_info.author, duration := video_info.length,
    views := video_info.views, thumbnail_url := video_info.thumbnail_url,
    quality := selected_format.quality, download_type := selected_format.type,
    file_size := some selected_format.filesize, itag := format_id,
    user_ip := user_ip, user_agent := user_agent, session_id := session_id,
    platform := pf, download_started := true, status := "downloading" }

/-- The `DownloadHistory` row constructed on the YouTube path
(lines 538-559): default status `initiated`. -/
def ytRecord (url : String) (itag : Option String) (user_ip user_agent session_id : String)
    (yt : YtObj) (stream : StreamObj) : HistRec :=
  { video_title := yt.title, video_url := url, video_id := extract_video_id url,
    author := yt.author, duration := yt.length, views := yt.views,
    thumbnail_url := yt.thumbnail_url,
    quality := pyOr stream.resolution "Audio Only",
    download_type := if truthyOpt stream.resolution then "video" else "audio",
    file_size := some stream.filesize, itag := itag, user_ip := user_ip,
    user_agent := user_agent, session_id := session_id, platform := .youtube }

/-- The Instagram/Facebook else-branch of `download_thread`
(lines 561-600 and 642-652, plus the shared tail of lines 601-693),
parameterized by the detected platform. -/
def download_thread_social (pf : Platform) (url : String) (format_id : Option String)
    (user_ip user_agent session_id : String) (o : Oracle) : ThreadOut :=
  let p0 := startingProg
  match get_social_media_info url o.extract with
  | .error e => { trace := p0 :: errWrites p0 e, record := none }
  | .ok video_info =>
    match video_info.quality_options.find? (fun opt => some opt.format_id == format_id) with
    | none =>
      { trace := p0 :: errWrites p0 "Selected quality not available", record := none }
    | some selected_format =>
      let download_record : HistRec :=
        socialRecord pf url format_id user_ip user_agent session_id video_info
          selected_format
      match o.commit1 with
      | some e =>
        { trace := p0 :: errWrites p0 e,
          record := some { download_record with
                           status := "failed", error_message := some e } }
      | none =>
        let p1 := { p0 with record_id := some 1 }
        let p2 := { p1 with status := .downloading }
        let hw := runHooks p2 o.hooks
        let pH := hw.getLastD p2
        match o.socialDl with
        | .error e =>
          -- `download_social_media_video` caught the backend exception and
          -- returned `(None, str(e))`: the task records the error in the
          -- progress dict and returns, leaving `download_record` untouched
          -- (lines 645-648).
          { trace := p0 :: p1 :: p2 :: (hw ++ errWrites pH e),
            record := some download_record }
        | .ok filepath =>
          let p3 := { pH with filepath := some filepath }
          let p4 := { p3 with filename := some (pyBasename filepath) }
          match o.commit2 with
          | some e =>
            { trace := p0 :: p1 :: p2 :: (hw ++ [p3, p4] ++ errWrites p4 e),
              record := some { download_record with
                               status := "failed", error_message := some e,
                               download_completed := true } }
          | none =>
            let p5 := { p4 with status := .completed }
            let p6 := { p5 with progress := 100 }
            { trace := p0 :: p1 :: p2 :: (hw ++ [p3, p4, p5, p6]),
              record := some { download_record with
                               status := "completed", download_completed := true } }

/-- The background task `download_thread` (lines 516-693).  The trace
starts with the `starting` entry inserted by the request handler; the
task function itself always returns normally (every exception of the
`try` block lands in the `except` handler of lines 680-693, and the
secondary commit failure there is swallowed by lines 691-693). -/
def download_thread (platform : Platform) (url : String) (itag format_id : Option String)
    (user_ip user_agent session_id : String) (o : Oracle) : ThreadOut :=
  let p0 := startingProg
  match platform with
  | .youtube =>
    match o.ytInit with
    | .error yt_error =>
      { trace := p0 :: errWrites p0 ("YouTube access error: " ++ yt_error), record := none }
    | .ok yt =>
      match o.stream with
      | none => { trace := p0 :: errWrites p0 "Selected quality not available", record := none }
      | some stream =>
        let download_record : HistRec :=
          ytRecord url itag user_ip user_agent session_id yt stream
        match o.commit1 with
        | some e =>
          { trace := p0 :: errWrites p0 e,
            record := some { download_record with status := "failed", error_message := some e } }
        | none =>
          let p1 := { p0 with record_id := some 1 }
          let filename :=
            sanitizeFilename (yt.title ++ "_" ++ pyOr stream.resolution "audio" ++ "."
              ++ stream.subtype)
          let filepath := tempDir ++ "/" ++ filename
          let p2 := { p1 with status := .downloading }
          let p3 := { p2 with filename := some filename }
          let cb := callbackWrites stream.filesize p3 o.ytCallbacks
          let pC := cb.getLastD p3
          match o.ytDl with
          | some e =>
            { trace := p0 :: p1 :: p2 :: p3 :: (cb ++ errWrites pC e),
              record := some { download_record with
                               status := "failed", error_message := some e } }
          | none =>
            let p4 := { pC with filepath := some filepath }
            match o.commit2 with
            | some e =>
              { trace := p0 :: p1 :: p2 :: p3 :: (cb ++ p4 :: errWrites p4 e),
                record := some { download_record with
                                 status := "failed", error_message := some e,
                                 download_completed := true } }
            | none =>
              let p5 := { p4 with status := .completed }
              let p6 := { p5 with progress := 100 }
              { trace := p0 :: p1 :: p2 :: p3 :: (cb ++ [p4, p5, p6]),
                record := some { download_record with
                                 status := "completed", download_completed := true } }
  | pf => download_thread_social pf url format_id user_ip user_agent session_id o

/-- The final state of the progress dict after the task ran. -/
def finalProg (t : ThreadOut) : Prog := t.trace.getLastD startingProg

/-! ### Injectivity of the decimal handle suffix

Handles are `f"download_{int(time.time())}"`; to compare handles of
different timestamps we need injectivity of `Nat.repr`, proven here via
a fuel-free reference implementation of `Nat.toDigitsCore`. -/

/-- Reference big-endian decimal digits. -/
def decDigits (n : Nat) : List Char :=
  if _h : n < 10 then [Nat.digitChar n]
  else decDigits (n / 10) ++ [Nat.digitChar (n % 10)]
termination_by n
decreasing_by exact Nat.div_lt_self (by omega) (by omega)

/-- `Nat.toDigitsCore` with enough fuel computes `decDigits`. -/
theorem toDigitsCore_eq_decDigits :
    ∀ (fuel n : Nat) (acc : List Char), n < fuel →
      Nat.toDigitsCore 10 fuel n acc = decDigits n ++ acc := by
  intro fuel
  induction fuel with
  | zero => intro n acc h; omega
  | succ fuel ih =>
    intro n acc _
    rw [Nat.toDigitsCore]
    by_cases h10 : n < 10
    · have hdiv : n / 10 = 0 := Nat.div_eq_of_lt h10
      have hmod : n % 10 = n := Nat.mod_eq_of_lt h10
      simp [hdiv, hmod, decDigits, h10]
    · have hdivpos : n / 10 ≠ 0 := by
        have : 1 ≤ n / 10 := (Nat.one_le_div_iff (by omega)).2 (by omega)
        omega
      have hlt : n / 10 < fuel := by
        have h1 : n / 10 < n := Nat.div_lt_self (by omega) (by omega)
        omega
      rw [if_neg hdivpos, ih (n / 10) _ hlt]
      conv_rhs => rw [decDigits]
      simp [h10]

/-- Decimal value of a big-endian digit list. -/
def valDec (l : List Char) : Nat := l.foldl (fun a c => 10 * a + (c.toNat - 48)) 0

theorem digitChar_val : ∀ d : Nat, d < 10 → (Nat.digitChar d).toNat - 48 = d := by decide

theorem valDec_decDigits : ∀ n, valDec (decDigits n) = n := by
  intro n
  induction n using Nat.strong_induction_on with
  | _ n ih =>
    rw [decDigits]
    by_cases h : n < 10
    · simp [h, valDec, digitChar_val n h]
    · have hlt : n / 10 < n := Nat.div_lt_self (by omega) (by omega)
      have hv := ih (n / 10) hlt
      simp only [h, dif_neg, not_false_iff]
      simp only [valDec, List.foldl_append] at hv ⊢
      rw [hv, List.foldl_cons, digitChar_val (n % 10) (Nat.mod_lt n (by omega))]
      simp [Nat.div_add_mod]

theorem decDigits_injective : ∀ m n : Nat, decDigits m = decDigits n → m = n := by
  intro m n h
  have hm := valDec_decDigits m
  rw [h, valDec_decDigits] at hm
  omega

theorem nat_repr_injective : ∀ m n : Nat, Nat.repr m = Nat.repr n → m = n := by
  intro m n h
  apply decDigits_injective
  have hm : Nat.repr m = (decDigits m).asString := by
    rw [Nat.repr, Nat.toDigits, toDigitsCore_eq_decDigits (m + 1) m [] (by omega)]
    simp
  have hn : Nat.repr n = (decDigits n).asString := by
    rw [Nat.repr, Nat.toDigits, toDigitsCore_eq_decDigits (n + 1) n [] (by omega)]
    simp
  rw [hm, hn] at h
  exact congrArg String.data h

theorem downloadIdAt_injective : ∀ t1 t2 : Nat, downloadIdAt t1 = downloadIdAt t2 → t1 = t2 := by
  intro t1 t2 h
  apply nat_repr_injective
  have hd := congrArg String.data h
  simp only [downloadIdAt, String.data_append] at hd
  have := List.append_cancel_left hd
  exact String.ext this

/-! ### Properties of the deduplication loop -/

section Dedup

variable {α κ β : Type} [DecidableEq κ] (key : α → Option κ) (mk : α → κ → β)

theorem newKeys_cons_none {f : α} {rest : List α} {seen : List κ} (hkf : key f = none) :
    newKeys key (f :: rest) seen = newKeys key rest seen := by
  simp [newKeys, hkf]

theorem newKeys_cons_some {f : α} {rest : List α} {seen : List κ} {k0 : κ}
    (hkf : key f = some k0) :
    newKeys key (f :: rest) seen =
      if k0 ∈ seen then newKeys key rest seen else k0 :: newKeys key rest (k0 :: seen) := by
  simp [newKeys, hkf]

theorem seenAfter_cons_none {f : α} {rest : List α} {seen : List κ} (hkf : key f = none) :
    seenAfter key (f :: rest) seen = seenAfter key rest seen := by
  simp [seenAfter, hkf]

theorem seenAfter_cons_some {f : α} {rest : List α} {seen : List κ} {k0 : κ}
    (hkf : key f = some k0) :
    seenAfter key (f :: rest) seen =
      if k0 ∈ seen then seenAfter key rest seen else seenAfter key rest (k0 :: seen) := by
  simp [seenAfter, hkf]

theorem dedupLoop_cons_none {f : α} {rest : List α} {seen : List κ} (hkf : key f = none) :
    dedupLoop key mk (f :: rest) seen = dedupLoop key mk rest seen := by
  simp [dedupLoop, hkf]

theorem dedupLoop_cons_some {f : α} {rest : List α} {seen : List κ} {k0 : κ}
    (hkf : key f = some k0) :
    dedupLoop key mk (f :: rest) seen =
      if k0 ∈ seen then dedupLoop key mk rest seen
      else mk f k0 :: dedupLoop key mk rest (k0 :: seen) := by
  simp [dedupLoop, hkf]

theorem newKeys_not_mem :
    ∀ (l : List α) (seen : List κ) (k : κ), k ∈ newKeys key l seen → k ∉ seen := by
  intro l
  induction l with
  | nil => simp [newKeys]
  | cons f rest ih =>
    intro seen k h
    cases hkf : key f with
    | none =>
      rw [newKeys_cons_none key hkf] at h
      exact ih seen k h
    | some k0 =>
      rw [newKeys_cons_some key hkf] at h
      by_cases hs : k0 ∈ seen
      · rw [if_pos hs] at h
        exact ih seen k h
      · rw [if_neg hs] at h
        rcases List.mem_cons.1 h with rfl | h2
        · exact hs
        · intro hk
          exact ih (k0 :: seen) k h2 (List.mem_cons_of_mem _ hk)

theorem newKeys_nodup : ∀ (l : List α) (seen : List κ), (newKeys key l seen).Nodup := by
  intro l
  induction l with
  | nil => simp [newKeys]
  | cons f rest ih =>
    intro seen
    cases hkf : key f with
    | none =>
      rw [newKeys_cons_none key hkf]
      exact ih seen
    | some k0 =>
      rw [newKeys_cons_some key hkf]
      by_cases hs : k0 ∈ seen
      · rw [if_pos hs]
        exact ih seen
      · rw [if_neg hs]
        refine List.nodup_cons.2 ⟨?_, ih (k0 :: seen)⟩
        intro hmem
        exact newKeys_not_mem key rest (k0 :: seen) k0 hmem (List.mem_cons_self k0 seen)

theorem seenAfter_mem :
    ∀ (l : List α) (seen : List κ) (k : κ),
      k ∈ seenAfter key l seen ↔ k ∈ newKeys key l seen ∨ k ∈ seen := by
  intro l
  induction l with
  | nil => simp [seenAfter, newKeys]
  | cons f rest ih =>
    intro seen k
    cases hkf : key f with
    | none =>
      rw [seenAfter_cons_none key hkf, newKeys_cons_none key hkf]
      exact ih seen k
    | some k0 =>
      rw [seenAfter_cons_some key hkf, newKeys_cons_some key hkf]
      by_cases hs : k0 ∈ seen
      · rw [if_pos hs, if_pos hs]
        exact ih seen k
      · rw [if_neg hs, if_neg hs]
        rw [ih (k0 :: seen) k]
        simp only [List.mem_cons]
        tauto

theorem dedupLoop_eq_filterMap :
    ∀ (l : List α) (seen : List κ),
      dedupLoop key mk l seen =
        (newKeys key l seen).filterMap
          (fun k => (l.find? (fun f => key f == some k)).map (fun f => mk f k)) := by
  intro l
  induction l with
  | nil => simp [dedupLoop, newKeys]
  | cons f rest ih =>
    intro seen
    cases hkf : key f with
    | none =>
      rw [dedupLoop_cons_none key mk hkf, newKeys_cons_none key hkf, ih seen]
      apply List.filterMap_congr
      intro k _
      have hne : (key f == some k) = false := by simp [hkf]
      rw [List.find?_cons_of_neg _ (by simp [hne])]
    | some k0 =>
      rw [dedupLoop_cons_some key mk hkf, newKeys_cons_some key hkf]
      by_cases hs : k0 ∈ seen
      · rw [if_pos hs, if_pos hs, ih seen]
        apply List.filterMap_congr
        intro k hk
        have hkne : k0 ≠ k := by
          intro he
          exact newKeys_not_mem key rest seen k hk (he ▸ hs)
        have hne : (key f == some k) = false := by simp [hkf, hkne]
        rw [List.find?_cons_of_neg _ (by simp [hne])]
      · rw [if_neg hs, if_neg hs, List.filterMap_cons]
        have hfind : (f :: rest).find? (fun g => key g == some k0) = some f :=
          List.find?_cons_of_pos _ (by simp [hkf])
        rw [hfind]
        simp only [Option.map_some']
        rw [ih (k0 :: seen)]
        congr 1
        apply List.filterMap_congr
        intro k hk
        have hkne : k0 ≠ k := by
          intro he
          exact newKeys_not_mem key rest (k0 :: seen) k hk (he ▸ List.mem_cons_self _ _)
        have hne : (key f == some k) = false := by simp [hkf, hkne]
        rw [List.find?_cons_of_neg _ (by simp [hne])]

theorem dedupLoop_mem :
    ∀ (l : List α) (seen : List κ) (b : β),
      b ∈ dedupLoop key mk l seen → ∃ f k, f ∈ l ∧ key f = some k ∧ b = mk f k := by
  intro l seen b hb
  rw [dedupLoop_eq_filterMap] at hb
  rcases List.mem_filterMap.1 hb with ⟨k, _, hsome⟩
  rcases Option.map_eq_some'.1 hsome with ⟨f, hfind, rfl⟩
  refine ⟨f, k, List.mem_of_find?_eq_some hfind, ?_, rfl⟩
  have := List.find?_some hfind
  simpa using this

end Dedup

/-! ### Status ordering along a download's lifetime -/

/-- Rank of a status along the lifecycle
(`not_found` is never written by the task). -/
def statusRank : Status → Nat
  | .starting => 0
  | .downloading => 1
  | .finished => 2
  | .completed => 3
  | .error => 3
  | .not_found => 0

/-- Terminal statuses: `completed` and `error`. -/
def terminalStatus (s : Status) : Prop := s = .completed ∨ s = .error

instance (s : Status) : Decidable (terminalStatus s) :=
  inferInstanceAs (Decidable (s = .completed ∨ s = .error))

/-- An admissible step of the recorded status sequence: never backwards,
and absorbing once terminal. -/
def Sstep (a b : Status) : Prop :=
  statusRank a ≤ statusRank b ∧ (terminalStatus a → b = a)

instance (a b : Status) : Decidable (Sstep a b) :=
  inferInstanceAs (Decidable (statusRank a ≤ statusRank b ∧ (terminalStatus a → b = a)))

theorem sstep_trans : Transitive Sstep := by
  rintro a b c ⟨hab, tab⟩ ⟨hbc, tbc⟩
  refine ⟨le_trans hab hbc, fun ta => ?_⟩
  have hba := tab ta
  subst hba
  exact tbc ta

/-! ### List bookkeeping helpers -/

theorem getLastD_cons' (a d : α) (l : List α) : (a :: l).getLastD d = l.getLastD a :=
  List.getLastD_cons d a l

theorem getLastD_append (l1 l2 : List α) (d : α) :
    (l1 ++ l2).getLastD d = l2.getLastD (l1.getLastD d) := by
  induction l1 generalizing d with
  | nil => rfl
  | cons a l1 ih => rw [List.cons_append, List.getLastD_cons, List.getLastD_cons, ih]

theorem getLastD_map (f : α → β) (t : List α) (p : α) :
    (t.map f).getLastD (f p) = f (t.getLastD p) := by
  induction t generalizing p with
  | nil => rfl
  | cons a t ih => rw [List.map_cons, List.getLastD_cons, List.getLastD_cons, ih]

theorem getLast?_cons_eq_getLastD (p : α) (t : List α) :
    (p :: t).getLast? = some (t.getLastD p) := by
  induction t generalizing p with
  | nil => rfl
  | cons q t ih => rw [List.getLast?_cons_cons, ih, List.getLastD_cons]

/-! ### Write traces of the progress callbacks -/

theorem callbackWrites_statuses (total : Nat) :
    ∀ (l : List Nat) (p : Prog),
      (callbackWrites total p l).map Prog.status = List.replicate l.length p.status := by
  intro l
  induction l with
  | nil => intro p; rfl
  | cons rem rest ih =>
    intro p
    simp only [callbackWrites, List.map_cons, List.length_cons, List.replicate_succ]
    exact congrArg (List.cons _) (ih _)

theorem callbackWrites_getLastD_status (total : Nat) :
    ∀ (l : List Nat) (p : Prog), ((callbackWrites total p l).getLastD p).status = p.status := by
  intro l
  induction l with
  | nil => intro p; rfl
  | cons rem rest ih =>
    intro p
    simp only [callbackWrites, getLastD_cons']
    exact ih _

/-- Status monotonicity of the yt-dlp hook writes: starting from a
`downloading` state, a well-formed hook sequence produces an
`Sstep`-chained status trace ending `downloading` or `finished`. -/
theorem runHooks_chain :
    ∀ (l : List HookEvent) (p : Prog), hookWF l = true → p.status = .downloading →
      List.Chain' Sstep ((p :: runHooks p l).map Prog.status) ∧
      (((runHooks p l).getLastD p).status = .downloading ∨
       ((runHooks p l).getLastD p).status = .finished) := by
  intro l
  induction l with
  | nil =>
    intro p _ hst
    exact ⟨List.chain'_singleton _, Or.inl hst⟩
  | cons e rest ih =>
    intro p hwf hst
    cases e with
    | dl total downloaded =>
      have hwf2 : hookWF rest = true := hwf
      simp only [runHooks, hookWrites]
      simp only [List.cons_append, List.nil_append, getLastD_cons']
      have hih := ih { p with progress := downloaded * 100 / total, status := .downloading }
        hwf2 rfl
      constructor
      · simp only [List.map_cons]
        refine List.chain'_cons.2 ⟨?_, ?_⟩
        · rw [hst]; decide
        · refine List.chain'_cons.2 ⟨?_, ?_⟩
          · rw [hst]; decide
          · exact hih.1
      · simpa using hih.2
    | dlStr pct =>
      cases pct with
      | some n =>
        have hwf2 : hookWF rest = true := hwf
        simp only [runHooks, hookWrites]
        simp only [List.cons_append, List.nil_append, getLastD_cons']
        have hih := ih { p with progress := n } hwf2 hst
        constructor
        · simp only [List.map_cons]
          refine List.chain'_cons.2 ⟨?_, ?_⟩
          · rw [hst]; decide
          · exact hih.1
        · simpa using hih.2
      | none =>
        have hwf2 : hookWF rest = true := hwf
        simp only [runHooks, hookWrites]
        simp only [List.nil_append]
        exact ih p hwf2 hst
    | fin fname =>
      have hrest : rest = [] := by
        simpa [hookWF, List.isEmpty_iff] using hwf
      subst hrest
      simp only [runHooks, hookWrites]
      simp only [List.cons_append, List.nil_append, List.append_nil, getLastD_cons']
      constructor
      · simp only [List.map_cons, List.map_nil]
        refine List.chain'_cons.2 ⟨?_, List.chain'_cons.2 ⟨?_,
          List.chain'_cons.2 ⟨?_, List.chain'_singleton _⟩⟩⟩
        · show Sstep p.status p.status
          rw [hst]; decide
        · show Sstep p.status .finished
          rw [hst]; decide
        · show Sstep Status.finished .finished
          decide
      · right
        rfl

instance : IsTrans Status Sstep := ⟨fun _ _ _ h1 h2 => sstep_trans h1 h2⟩

theorem chainCons {a b : Status} {t : List Status} (h : Sstep a b)
    (hc : List.Chain' Sstep (b :: t)) : List.Chain' Sstep (a :: b :: t) :=
  List.chain'_cons.2 ⟨h, hc⟩

theorem chain'_replicate_append (n : Nat) (x : Status) (tail : List Status)
    (hx : Sstep x x) (ht : List.Chain' Sstep (x :: tail)) :
    List.Chain' Sstep (x :: (List.replicate n x ++ tail)) := by
  induction n with
  | zero => simpa using ht
  | succ n ih =>
    rw [List.replicate_succ, List.cons_append]
    exact chainCons hx ih

/-- Status chain of a social-path trace
`p0 :: p1 :: p2 :: (runHooks p2 hooks ++ tail)`, for any tail whose
status chain extends the last hook state. -/
theorem social_tail_chain (hooks : List HookEvent) (hwf : hookWF hooks = true)
    (p0x p1x p2 : Prog) (hp0 : p0x.status = .starting) (hp1 : p1x.status = .starting)
    (hp2 : p2.status = .downloading) (tail : List Prog)
    (htail : (((runHooks p2 hooks).getLastD p2).status = .downloading ∨
              ((runHooks p2 hooks).getLastD p2).status = .finished) →
        List.Chain' Sstep
          ((((runHooks p2 hooks).getLastD p2).status) :: tail.map Prog.status)) :
    List.Chain' Sstep
      ((p0x :: p1x :: p2 :: (runHooks p2 hooks ++ tail)).map Prog.status) := by
  have hrh := runHooks_chain hooks p2 hwf hp2
  have htail2 := htail hrh.2
  simp only [List.map_cons]
  refine chainCons ?_ (chainCons ?_ ?_)
  · rw [hp0, hp1]; decide
  · rw [hp1, hp2]; decide
  · rw [List.map_append, ← List.cons_append]
    have h1 : List.Chain' Sstep (p2.status :: (runHooks p2 hooks).map Prog.status) := by
      have := hrh.1
      simpa using this
    refine List.chain'_append.2 ⟨h1, htail2.tail, ?_⟩
    intro x hx y hy
    rw [getLast?_cons_eq_getLastD, getLastD_map, Option.mem_some_iff] at hx
    subst hx
    exact htail2.rel_head? hy

/-- Status chain of a YouTube-path trace
`p0 :: p1 :: p2 :: p3 :: (callbackWrites total p3 cbs ++ tail)`. -/
theorem yt_tail_chain (total : Nat) (cbs : List Nat) (p0x p1x p2 p3 : Prog)
    (hp0 : p0x.status = .starting) (hp1 : p1x.status = .starting)
    (hp2 : p2.status = .downloading) (hp3 : p3.status = .downloading) (tail : List Prog)
    (htail : List.Chain' Sstep (Status.downloading :: tail.map Prog.status)) :
    List.Chain' Sstep
      ((p0x :: p1x :: p2 :: p3 :: (callbackWrites total p3 cbs ++ tail)).map Prog.status) := by
  simp only [List.map_cons, List.map_append]
  rw [callbackWrites_statuses, hp3]
  refine chainCons ?_ (chainCons ?_ (chainCons ?_ ?_))
  · rw [hp0, hp1]; decide
  · rw [hp1, hp2]; decide
  · rw [hp2]; decide
  · exact chain'_replicate_append _ _ _ (by decide) htail

/-- The status chain of any social-path run (the else-branch of the
background task). -/
theorem social_trace_chain (pf : Platform) (url : String) (format_id : Option String)
    (uip ua sid : String) (o : Oracle) (hwf : hookWF o.hooks = true) :
    List.Chain' Sstep
      ((download_thread_social pf url format_id uip ua sid o).trace.map Prog.status) := by
  obtain ⟨ytInit, stream, extract, commit1, hooks, socialDl, ytCallbacks, ytDl,
    commit2, commitFail⟩ := o
  simp only at hwf
  cases hgi : get_social_media_info url extract with
  | error e =>
    simp only [download_thread_social, hgi, errWrites, startingProg, List.map_cons,
      List.map_nil]
    exact chainCons (by decide) (chainCons (by decide) (List.chain'_singleton _))
  | ok video_info =>
    cases hfind : video_info.quality_options.find?
        (fun opt => some opt.format_id == format_id) with
    | none =>
      simp only [download_thread_social, hgi, hfind, errWrites, startingProg,
        List.map_cons, List.map_nil]
      exact chainCons (by decide) (chainCons (by decide) (List.chain'_singleton _))
    | some selected_format =>
      cases commit1 with
      | some e =>
        simp only [download_thread_social, hgi, hfind, errWrites, startingProg,
          List.map_cons, List.map_nil]
        exact chainCons (by decide) (chainCons (by decide) (List.chain'_singleton _))
      | none =>
        cases hsd : socialDl with
        | error e =>
          simp only [download_thread_social, hgi, hfind, hsd, startingProg]
          refine social_tail_chain hooks hwf _ _ _ rfl rfl rfl _ (fun hx => ?_)
          simp only [errWrites, List.map_cons, List.map_nil]
          rcases hx with h | h <;> rw [h] <;>
            exact chainCons (by decide) (chainCons (by decide) (List.chain'_singleton _))
        | ok filepath =>
          cases commit2 with
          | some e =>
            simp only [download_thread_social, hgi, hfind, hsd, startingProg,
              List.append_assoc]
            refine social_tail_chain hooks hwf _ _ _ rfl rfl rfl _ (fun hx => ?_)
            simp only [errWrites, List.map_cons, List.map_nil, List.map_append,
              List.cons_append, List.nil_append]
            rcases hx with h | h <;> rw [h] <;>
              exact chainCons (by decide) (chainCons (by decide) (chainCons (by decide)
                (chainCons (by decide) (List.chain'_singleton _))))
          | none =>
            simp only [download_thread_social, hgi, hfind, hsd, startingProg]
            refine social_tail_chain hooks hwf _ _ _ rfl rfl rfl _ (fun hx => ?_)
            simp only [List.map_cons, List.map_nil]
            rcases hx with h | h <;> rw [h] <;>
              exact chainCons (by decide) (chainCons (by decide) (chainCons (by decide)
                (chainCons (by decide) (List.chain'_singleton _))))

/-- C2 (amended): within the write sequence of a single background task
run (the handler's `starting` insert followed by that task's writes),
the status values never step backwards in rank
(Starting → Downloading → Finished → {Completed, Error}) and, once a
terminal value (Completed or Error) is written, the status never changes
again.  The hypothesis is the backend's documented hook contract: the
yt-dlp hooks deliver `downloading` events followed by at most one final
`finished` event.  (The source also writes the intermediate `finished`
status of the hook before reaching `completed`; it sits between
Downloading and Completed in the rank order.)  Over a handle's whole
lifetime the property fails, because two same-second requests share one
handle and the second handler's insert rewrites `starting` over the
first task's record — see the counterexample below. -/
theorem c2_status_monotonic_terminal_absorbing :
    ∀ (platform : Platform) (url : String) (itag format_id : Option String)
      (uip ua sid : String) (o : Oracle), hookWF o.hooks = true →
      List.Pairwise Sstep
        ((download_thread platform url itag format_id uip ua sid o).trace.map Prog.status) := by
  intro platform url itag format_id uip ua sid o hwf
  rw [← List.chain'_iff_pairwise]
  cases platform with
  | instagram => exact social_trace_chain _ url format_id uip ua sid o hwf
  | facebook => exact social_trace_chain _ url format_id uip ua sid o hwf
  | youtube =>
    obtain ⟨ytInit, stream, extract, commit1, hooks, socialDl, ytCallbacks, ytDl,
      commit2, commitFail⟩ := o
    cases ytInit with
    | error e =>
      simp only [download_thread, errWrites, startingProg, List.map_cons, List.map_nil]
      exact chainCons (by decide) (chainCons (by decide) (List.chain'_singleton _))
    | ok yt =>
      cases stream with
      | none =>
        simp only [download_thread, errWrites, startingProg, List.map_cons, List.map_nil]
        exact chainCons (by decide) (chainCons (by decide) (List.chain'_singleton _))
      | some st =>
        cases commit1 with
        | some e =>
          simp only [download_thread, errWrites, startingProg, List.map_cons, List.map_nil]
          exact chainCons (by decide) (chainCons (by decide) (List.chain'_singleton _))
        | none =>
          cases ytDl with
          | some e =>
            simp only [download_thread, startingProg]
            refine yt_tail_chain _ _ _ _ _ _ rfl rfl rfl rfl _ ?_
            simp only [errWrites, List.map_cons, List.map_nil]
            exact chainCons (by decide) (chainCons (by decide) (List.chain'_singleton _))
          | none =>
            cases commit2 with
            | some e =>
              simp only [download_thread, startingProg]
              refine yt_tail_chain _ _ _ _ _ _ rfl rfl rfl rfl _ ?_
              simp only [errWrites, List.map_cons, List.map_nil,
                callbackWrites_getLastD_status]
              exact chainCons (by decide) (chainCons (by decide) (chainCons (by decide)
                (List.chain'_singleton _)))
            | none =>
              simp only [download_thread, startingProg]
              refine yt_tail_chain _ _ _ _ _ _ rfl rfl rfl rfl _ ?_
              simp only [List.map_cons, List.map_nil, callbackWrites_getLastD_status]
              exact chainCons (by decide) (chainCons (by decide) (chainCons (by decide)
                (List.chain'_singleton _)))

theorem c2_status_monotonic_terminal_absorbing_witness :
    hookWF [HookEvent.dl 100 50, HookEvent.fin "v.mp4"] = true ∧
    List.Pairwise Sstep
      ((download_thread .instagram "https://www.instagram.com/reel/Ab1" none (some "f1")
        "ip" "ua" "sess"
        { ytInit := .error "", stream := none, extract := .ok { formats := [] },
          commit1 := none, hooks := [HookEvent.dl 100 50, HookEvent.fin "v.mp4"],
          socialDl := .ok "/tmp/v.mp4", ytCallbacks := [], ytDl := none,
          commit2 := none, commitFail := none }).trace.map Prog.status) :=
  ⟨by decide,
   c2_status_monotonic_terminal_absorbing .instagram "https://www.instagram.com/reel/Ab1"
     none (some "f1") "ip" "ua" "sess"
     { ytInit := .error "", stream := none, extract := .ok { formats := [] },
       commit1 := none, hooks := [HookEvent.dl 100 50, HookEvent.fin "v.mp4"],
       socialDl := .ok "/tmp/v.mp4", ytCallbacks := [], ytDl := none,
       commit2 := none, commitFail := none } (by decide)⟩

unseal List.merge List.mergeSort in
/-- C2 counterexample: as a statement about a download handle's whole
lifetime the claim is false.  Two requests accepted at the same integer
second both get the handle `download_1700000000` (line 513); when the
second handler's `starting` insert (line 514) lands after the first
request's task has finished, the statuses written under that one handle
are the first task's writes (ending `completed`) followed by another
`starting` — a transition back to an earlier state and a change after a
terminal value.  The first list entry of the modelled trace is the first
handler's own insert; the appended `startingProg` is the second
handler's. -/
theorem c2_handle_lifetime_regression_cex :
    (download_video [] "https://www.instagram.com/reel/Cd2" none (some "f1")
      1700000000).resp = .ok "download_1700000000" "Download started" ∧
    (download_video
      (download_video [] "https://www.instagram.com/reel/Cd2" none (some "f1")
        1700000000).registry
      "https://www.youtube.com/watch?v=dQw4w9WgXcQ" (some "18") none
      1700000000).resp = .ok "download_1700000000" "Download started" ∧
    ¬ List.Pairwise Sstep
      (((download_thread .instagram "https://www.instagram.com/reel/Cd2" none (some "f1")
          "ip" "ua" "sess"
          { ytInit := .error "", stream := none,
            extract := .ok { formats := [{ format_id := "f1", vcodec := some "h264",
                                           height := some 720 }] },
            commit1 := none, hooks := [HookEvent.fin "v.mp4"],
            socialDl := .ok "/tmp/v.mp4", ytCallbacks := [], ytDl := none,
            commit2 := none, commitFail := none }).trace
        ++ [startingProg]).map Prog.status) := by
  exact ⟨by decide, by decide, by decide⟩

/-! ### Final-state analysis of the background task -/

/-- On the social path, a final `completed` status always comes with
progress 100 (the write of line 676 is the task's last write). -/
theorem social_final_completed (pf : Platform) (url : String) (format_id : Option String)
    (uip ua sid : String) (o : Oracle) :
    (finalProg (download_thread_social pf url format_id uip ua sid o)).status = .completed →
    (finalProg (download_thread_social pf url format_id uip ua sid o)).progress = 100 := by
  obtain ⟨ytInit, stream, extract, commit1, hooks, socialDl, ytCallbacks, ytDl,
    commit2, commitFail⟩ := o
  cases hgi : get_social_media_info url extract with
  | error e =>
    simp only [download_thread_social, hgi, errWrites, startingProg, finalProg,
      List.getLastD_cons, List.getLastD_nil]
    intro h
    exact Status.noConfusion h
  | ok video_info =>
    cases hfind : video_info.quality_options.find?
        (fun opt => some opt.format_id == format_id) with
    | none =>
      simp only [download_thread_social, hgi, hfind, errWrites, startingProg, finalProg,
        List.getLastD_cons, List.getLastD_nil]
      intro h
      exact Status.noConfusion h
    | some selected_format =>
      cases commit1 with
      | some e =>
        simp only [download_thread_social, hgi, hfind, errWrites, startingProg, finalProg,
          List.getLastD_cons, List.getLastD_nil]
        intro h
        exact Status.noConfusion h
      | none =>
        cases hsd : socialDl with
        | error e =>
          simp only [download_thread_social, hgi, hfind, hsd, errWrites, startingProg,
            finalProg, List.getLastD_cons, List.getLastD_nil, getLastD_append]
          intro h
          exact Status.noConfusion h
        | ok filepath =>
          cases commit2 with
          | some e =>
            simp only [download_thread_social, hgi, hfind, hsd, errWrites, startingProg,
              finalProg, List.getLastD_cons, List.getLastD_nil, getLastD_append,
              List.append_assoc, List.cons_append, List.nil_append]
            intro h
            exact Status.noConfusion h
          | none =>
            simp only [download_thread_social, hgi, hfind, hsd, startingProg, finalProg,
              List.getLastD_cons, List.getLastD_nil, getLastD_append]
            intro _
            trivial

/-- C3 (amended): in the final state of the background task, status
`completed` implies `percentComplete = 100`.  The original biconditional
fails in mid-run states (see the counterexample): the hooks set the
percent to 100 with status `finished`/`downloading` before `completed`
is written, and a finalize-commit failure can leave an `error` state
with percent 100. -/
theorem c3_completed_final_percent_100 :
    ∀ (platform : Platform) (url : String) (itag format_id : Option String)
      (uip ua sid : String) (o : Oracle),
      (finalProg (download_thread platform url itag format_id uip ua sid o)).status
          = .completed →
      (finalProg (download_thread platform url itag format_id uip ua sid o)).progress
          = 100 := by
  intro platform url itag format_id uip ua sid o
  cases platform with
  | instagram => exact social_final_completed _ url format_id uip ua sid o
  | facebook => exact social_final_completed _ url format_id uip ua sid o
  | youtube =>
    obtain ⟨ytInit, stream, extract, commit1, hooks, socialDl, ytCallbacks, ytDl,
      commit2, commitFail⟩ := o
    cases ytInit with
    | error e =>
      simp only [download_thread, errWrites, startingProg, finalProg,
        List.getLastD_cons, List.getLastD_nil]
      intro h
      exact Status.noConfusion h
    | ok yt =>
      cases stream with
      | none =>
        simp only [download_thread, errWrites, startingProg, finalProg,
          List.getLastD_cons, List.getLastD_nil]
        intro h
        exact Status.noConfusion h
      | some st =>
        cases commit1 with
        | some e =>
          simp only [download_thread, errWrites, startingProg, finalProg,
            List.getLastD_cons, List.getLastD_nil]
          intro h
          exact Status.noConfusion h
        | none =>
          cases ytDl with
          | some e =>
            simp only [download_thread, errWrites, startingProg, finalProg,
              List.getLastD_cons, List.getLastD_nil, getLastD_append]
            intro h
            exact Status.noConfusion h
          | none =>
            cases commit2 with
            | some e =>
              simp only [download_thread, errWrites, startingProg, finalProg,
                List.getLastD_cons, List.getLastD_nil, getLastD_append]
              intro h
              exact Status.noConfusion h
            | none =>
              simp only [download_thread, startingProg, finalProg,
                List.getLastD_cons, List.getLastD_nil, getLastD_append]
              intro _
              trivial

unseal List.merge List.mergeSort in
theorem c3_completed_final_percent_100_witness :
    (finalProg (download_thread .instagram "https://www.instagram.com/reel/Ab1" none
      (some "f1") "ip" "ua" "sess"
      { ytInit := .error "", stream := none,
        extract := .ok { formats := [{ format_id := "f1", vcodec := some "h264",
                                       height := some 720 }] },
        commit1 := none, hooks := [HookEvent.fin "v.mp4"],
        socialDl := .ok "/tmp/v.mp4", ytCallbacks := [], ytDl := none,
        commit2 := none, commitFail := none })).status = .completed ∧
    (finalProg (download_thread .instagram "https://www.instagram.com/reel/Ab1" none
      (some "f1") "ip" "ua" "sess"
      { ytInit := .error "", stream := none,
        extract := .ok { formats := [{ format_id := "f1", vcodec := some "h264",
                                       height := some 720 }] },
        commit1 := none, hooks := [HookEvent.fin "v.mp4"],
        socialDl := .ok "/tmp/v.mp4", ytCallbacks := [], ytDl := none,
        commit2 := none, commitFail := none })).progress = 100 :=
  ⟨by decide,
   c3_completed_final_percent_100 .instagram "https://www.instagram.com/reel/Ab1" none
     (some "f1") "ip" "ua" "sess"
     { ytInit := .error "", stream := none,
       extract := .ok { formats := [{ format_id := "f1", vcodec := some "h264",
                                      height := some 720 }] },
       commit1 := none, hooks := [HookEvent.fin "v.mp4"],
       socialDl := .ok "/tmp/v.mp4", ytCallbacks := [], ytDl := none,
       commit2 := none, commitFail := none } (by decide)⟩

unseal List.merge List.mergeSort in
/-- C3 counterexample: on a successful Instagram download the trace
contains a state with `percentComplete = 100` whose status is not
`Completed` (the `finished` hook of lines 466-469 sets percent 100
first), so "percent = 100 iff status = Completed" is false as a
statement about every point of the handle's lifetime. -/
theorem c3_percent_100_iff_completed_cex :
    ((download_thread .instagram "https://www.instagram.com/reel/Ab1" none (some "f1")
      "ip" "ua" "sess"
      { ytInit := .error "", stream := none,
        extract := .ok { formats := [{ format_id := "f1", vcodec := some "h264",
                                       height := some 720 }] },
        commit1 := none, hooks := [HookEvent.fin "v.mp4"],
        socialDl := .ok "/tmp/v.mp4", ytCallbacks := [], ytDl := none,
        commit2 := none, commitFail := none }).trace.any
        (fun p => p.progress == 100 && !(p.status == Status.completed))) = true := by
  decide

/-! ### Exceptions that reach the top-level failure handler -/

/-- The YouTube path constructs (and commits) the history row: the
`YouTube(url)` constructor succeeded and `get_by_itag` found a stream. -/
def ytReachesRecord (o : Oracle) : Bool := o.ytInit.isOk && o.stream.isSome

/-- The social path constructs the history row: extraction succeeded and
the requested format id was found. -/
def socialReachesRecord (url : String) (format_id : Option String) (o : Oracle) : Bool :=
  match get_social_media_info url o.extract with
  | .error _ => false
  | .ok vi => (vi.quality_options.find? (fun opt => some opt.format_id == format_id)).isSome

/-- An exception with message `s` reaches the `except` handler of lines
680-693 on the YouTube path after the history row exists: the row
commit, the blocking `stream.download`, or the finalize commit raised. -/
def ytTopRaise (o : Oracle) (s : String) : Prop :=
  ytReachesRecord o = true ∧
  (o.commit1 = some s ∨ (o.commit1 = none ∧ o.ytDl = some s) ∨
   (o.commit1 = none ∧ o.ytDl = none ∧ o.commit2 = some s))

/-- An exception with message `s` reaches the handler on the social path
after the history row exists: the row commit or the finalize commit
raised.  (A backend failure inside `download_social_media_video` does
not raise here: it is converted to a return value, see lines 485-487.) -/
def socialTopRaise (url : String) (format_id : Option String) (o : Oracle) (s : String) :
    Prop :=
  socialReachesRecord url format_id o = true ∧
  (o.commit1 = some s ∨ (o.commit1 = none ∧ o.socialDl.isOk = true ∧ o.commit2 = some s))

/-- C4 (amended): whenever an exception propagates to the background
task's top-level handler after the history row was created, the progress
dict ends with status `error` carrying the failure detail, the in-memory
history row ends with status `failed` and the same non-empty message,
and the outcome does not depend on whether the best-effort commit inside
the failure handler itself succeeds (it is swallowed, lines 691-693).
On the Instagram/Facebook path however, a backend failure *inside the
download helper* never reaches that handler (see the counterexample):
there the history row is left in status `downloading`. -/
theorem c4_top_level_failure_marks_error_and_failed :
    (∀ (url : String) (itag format_id : Option String) (uip ua sid : String) (o : Oracle)
       (s : String), s ≠ "" → ytTopRaise o s →
       (finalProg (download_thread .youtube url itag format_id uip ua sid o)).status
           = .error ∧
       (finalProg (download_thread .youtube url itag format_id uip ua sid o)).error
           = some s ∧
       (∃ r, (download_thread .youtube url itag format_id uip ua sid o).record = some r ∧
          r.status = "failed" ∧ r.error_message = some s ∧ r.error_message ≠ some "") ∧
       (∀ cf, download_thread .youtube url itag format_id uip ua sid
           { o with commitFail := cf } =
         download_thread .youtube url itag format_id uip ua sid o)) ∧
    (∀ (pf : Platform) (url : String) (format_id : Option String) (uip ua sid : String)
       (o : Oracle) (s : String), s ≠ "" → socialTopRaise url format_id o s →
       (finalProg (download_thread_social pf url format_id uip ua sid o)).status = .error ∧
       (finalProg (download_thread_social pf url format_id uip ua sid o)).error = some s ∧
       (∃ r, (download_thread_social pf url format_id uip ua sid o).record = some r ∧
          r.status = "failed" ∧ r.error_message = some s ∧ r.error_message ≠ some "") ∧
       (∀ cf, download_thread_social pf url format_id uip ua sid
           { o with commitFail := cf } =
         download_thread_social pf url format_id uip ua sid o)) := by
  constructor
  · intro url itag format_id uip ua sid o s hne htop
    obtain ⟨hreach, hcases⟩ := htop
    obtain ⟨ytInit, stream, extract, commit1, hooks, socialDl, ytCallbacks, ytDl,
      commit2, commitFail⟩ := o
    simp only [ytReachesRecord] at hreach
    cases ytInit with
    | error e => simp [Except.isOk, Except.toBool] at hreach
    | ok yt =>
      cases stream with
      | none => simp at hreach
      | some st =>
        rcases hcases with hc | ⟨hc1, hc⟩ | ⟨hc1, hc2, hc⟩
        · subst hc
          refine ⟨?_, ?_, ?_, ?_⟩
          · simp only [download_thread, finalProg, errWrites, startingProg,
              List.getLastD_cons, List.getLastD_nil]
          · simp only [download_thread, finalProg, errWrites, startingProg,
              List.getLastD_cons, List.getLastD_nil]
          · exact ⟨{ ytRecord url itag uip ua sid yt st with
                     status := "failed", error_message := some s },
              by simp only [download_thread], rfl, rfl,
              fun hcontra => hne (Option.some.inj hcontra)⟩
          · intro cf
            simp only [download_thread]
        · subst hc1; subst hc
          refine ⟨?_, ?_, ?_, ?_⟩
          · simp only [download_thread, finalProg, errWrites, startingProg,
              List.getLastD_cons, List.getLastD_nil, getLastD_append]
          · simp only [download_thread, finalProg, errWrites, startingProg,
              List.getLastD_cons, List.getLastD_nil, getLastD_append]
          · exact ⟨{ ytRecord url itag uip ua sid yt st with
                     status := "failed", error_message := some s },
              by simp only [download_thread], rfl, rfl,
              fun hcontra => hne (Option.some.inj hcontra)⟩
          · intro cf
            simp only [download_thread]
        · subst hc1; subst hc2; subst hc
          refine ⟨?_, ?_, ?_, ?_⟩
          · simp only [download_thread, finalProg, errWrites, startingProg,
              List.getLastD_cons, List.getLastD_nil, getLastD_append]
          · simp only [download_thread, finalProg, errWrites, startingProg,
              List.getLastD_cons, List.getLastD_nil, getLastD_append]
          · exact ⟨{ ytRecord url itag uip ua sid yt st with
                     status := "failed", error_message := some s,
                     download_completed := true },
              by simp only [download_thread], rfl, rfl,
              fun hcontra => hne (Option.some.inj hcontra)⟩
          · intro cf
            simp only [download_thread]
  · intro pf url format_id uip ua sid o s hne htop
    obtain ⟨hreach, hcases⟩ := htop
    simp only [socialReachesRecord] at hreach
    cases hgi : get_social_media_info url o.extract with
    | error e => rw [hgi] at hreach; simp at hreach
    | ok vi =>
      rw [hgi] at hreach
      simp only at hreach
      rcases Option.isSome_iff_exists.1 hreach with ⟨sel, hfind⟩
      rcases hcases with hc | ⟨hc1, hok, hc2⟩
      · refine ⟨?_, ?_, ?_, ?_⟩
        · simp only [download_thread_social, hgi, hfind, hc, finalProg, errWrites,
            startingProg, List.getLastD_cons, List.getLastD_nil]
        · simp only [download_thread_social, hgi, hfind, hc, finalProg, errWrites,
            startingProg, List.getLastD_cons, List.getLastD_nil]
        · exact ⟨{ socialRecord pf url format_id uip ua sid vi sel with
                   status := "failed", error_message := some s },
            by simp only [download_thread_social, hgi, hfind, hc], rfl, rfl,
            fun hcontra => hne (Option.some.inj hcontra)⟩
        · intro cf
          simp only [download_thread_social, hgi, hfind, hc]
      · cases hsd : o.socialDl with
        | error e2 => rw [hsd] at hok; simp [Except.isOk, Except.toBool] at hok
        | ok fp =>
          refine ⟨?_, ?_, ?_, ?_⟩
          · simp only [download_thread_social, hgi, hfind, hc1, hsd, hc2, finalProg,
              errWrites, startingProg, List.getLastD_cons, List.getLastD_nil,
              getLastD_append, List.append_assoc, List.cons_append, List.nil_append]
          · simp only [download_thread_social, hgi, hfind, hc1, hsd, hc2, finalProg,
              errWrites, startingProg, List.getLastD_cons, List.getLastD_nil,
              getLastD_append, List.append_assoc, List.cons_append, List.nil_append]
          · exact ⟨{ socialRecord pf url format_id uip ua sid vi sel with
                     status := "failed", error_message := some s,
                     download_completed := true },
              by simp only [download_thread_social, hgi, hfind, hc1, hsd, hc2], rfl, rfl,
              fun hcontra => hne (Option.some.inj hcontra)⟩
          · intro cf
            simp only [download_thread_social, hgi, hfind, hc1, hsd, hc2]

unseal List.merge List.mergeSort in
theorem c4_top_level_failure_marks_error_and_failed_witness :
    (finalProg (download_thread_social .instagram "https://www.instagram.com/reel/Ab1"
      (some "f1") "ip" "ua" "sess"
      { ytInit := .error "", stream := none,
        extract := .ok { formats := [{ format_id := "f1", vcodec := some "h264",
                                       height := some 720 }] },
        commit1 := some "db is locked", hooks := [], socialDl := .ok "/tmp/v.mp4",
        ytCallbacks := [], ytDl := none, commit2 := none,
        commitFail := some "db is locked" })).status = .error ∧
    (finalProg (download_thread_social .instagram "https://www.instagram.com/reel/Ab1"
      (some "f1") "ip" "ua" "sess"
      { ytInit := .error "", stream := none,
        extract := .ok { formats := [{ format_id := "f1", vcodec := some "h264",
                                       height := some 720 }] },
        commit1 := some "db is locked", hooks := [], socialDl := .ok "/tmp/v.mp4",
        ytCallbacks := [], ytDl := none, commit2 := none,
        commitFail := some "db is locked" })).error = some "db is locked" ∧
    (∃ r, (download_thread_social .instagram "https://www.instagram.com/reel/Ab1"
      (some "f1") "ip" "ua" "sess"
      { ytInit := .error "", stream := none,
        extract := .ok { formats := [{ format_id := "f1", vcodec := some "h264",
                                       height := some 720 }] },
        commit1 := some "db is locked", hooks := [], socialDl := .ok "/tmp/v.mp4",
        ytCallbacks := [], ytDl := none, commit2 := none,
        commitFail := some "db is locked" }).record = some r ∧
       r.status = "failed" ∧ r.error_message = some "db is locked" ∧
       r.error_message ≠ some "") ∧
    (∀ cf, download_thread_social .instagram "https://www.instagram.com/reel/Ab1"
      (some "f1") "ip" "ua" "sess"
      { ytInit := .error "", stream := none,
        extract := .ok { formats := [{ format_id := "f1", vcodec := some "h264",
                                       height := some 720 }] },
        commit1 := some "db is locked", hooks := [], socialDl := .ok "/tmp/v.mp4",
        ytCallbacks := [], ytDl := none, commit2 := none, commitFail := cf } =
      download_thread_social .instagram "https://www.instagram.com/reel/Ab1"
      (some "f1") "ip" "ua" "sess"
      { ytInit := .error "", stream := none,
        extract := .ok { formats := [{ format_id := "f1", vcodec := some "h264",
                                       height := some 720 }] },
        commit1 := some "db is locked", hooks := [], socialDl := .ok "/tmp/v.mp4",
        ytCallbacks := [], ytDl := none, commit2 := none,
        commitFail := some "db is locked" }) :=
  c4_top_level_failure_marks_error_and_failed.2 .instagram
    "https://www.instagram.com/reel/Ab1" (some "f1") "ip" "ua" "sess"
    { ytInit := .error "", stream := none,
      extract := .ok { formats := [{ format_id := "f1", vcodec := some "h264",
                                     height := some 720 }] },
      commit1 := some "db is locked", hooks := [], socialDl := .ok "/tmp/v.mp4",
      ytCallbacks := [], ytDl := none, commit2 := none,
      commitFail := some "db is locked" } "db is locked" (by decide)
    ⟨by decide, Or.inl rfl⟩

unseal List.merge List.mergeSort in
/-- C4 counterexample: an Instagram download whose backend call raises
mid-transfer (`ydl.download` throws, caught by lines 485-487 and turned
into a return value) leaves the history row in status `downloading` —
it is never marked `failed` — although the progress dict ends with
status `error`.  This refutes the claim that *any* exception inside the
background task after record creation ends with the record Failed. -/
theorem c4_social_backend_failure_record_not_failed_cex :
    ((download_thread .instagram "https://www.instagram.com/reel/Ab1" none (some "f1")
      "ip" "ua" "sess"
      { ytInit := .error "", stream := none,
        extract := .ok { formats := [{ format_id := "f1", vcodec := some "h264",
                                       height := some 720 }] },
        commit1 := none, hooks := [HookEvent.dl 100 50],
        socialDl := .error "Connection reset", ytCallbacks := [], ytDl := none,
        commit2 := none, commitFail := none }).record.map HistRec.status)
        = some "downloading" ∧
    (finalProg (download_thread .instagram "https://www.instagram.com/reel/Ab1" none
      (some "f1") "ip" "ua" "sess"
      { ytInit := .error "", stream := none,
        extract := .ok { formats := [{ format_id := "f1", vcodec := some "h264",
                                       height := some 720 }] },
        commit1 := none, hooks := [HookEvent.dl 100 50],
        socialDl := .error "Connection reset", ytCallbacks := [], ytDl := none,
        commit2 := none, commitFail := none })).status = .error ∧
    (finalProg (download_thread .instagram "https://www.instagram.com/reel/Ab1" none
      (some "f1") "ip" "ua" "sess"
      { ytInit := .error "", stream := none,
        extract := .ok { formats := [{ format_id := "f1", vcodec := some "h264",
                                       height := some 720 }] },
        commit1 := none, hooks := [HookEvent.dl 100 50],
        socialDl := .error "Connection reset", ytCallbacks := [], ytDl := none,
        commit2 := none, commitFail := none })).error = some "Connection reset" := by
  refine ⟨by decide, by decide, by decide⟩

/-- C6 (amended): a failure to commit the newly created
DownloadHistoryRecord (line 602) is *fatal* to the download: the
exception propagates to the failure handler, the progress dict
terminates with status Error carrying the commit failure detail, the
progress record never reaches Downloading (the backend download
operation is never invoked), and the history row is marked Failed.  The
outcome is not determined by the backend download operation. -/
theorem c6_record_commit_failure_aborts_download :
    (∀ (url : String) (itag format_id : Option String) (uip ua sid : String) (o : Oracle)
       (e : String), ytReachesRecord o = true → o.commit1 = some e →
       (finalProg (download_thread .youtube url itag format_id uip ua sid o)).status
           = .error ∧
       (finalProg (download_thread .youtube url itag format_id uip ua sid o)).error
           = some e ∧
       (∀ q ∈ (download_thread .youtube url itag format_id uip ua sid o).trace,
          q.status ≠ .downloading) ∧
       (∃ r, (download_thread .youtube url itag format_id uip ua sid o).record = some r ∧
          r.status = "failed" ∧ r.error_message = some e)) ∧
    (∀ (pf : Platform) (url : String) (format_id : Option String) (uip ua sid : String)
       (o : Oracle) (e : String), socialReachesRecord url format_id o = true →
       o.commit1 = some e →
       (finalProg (download_thread_social pf url format_id uip ua sid o)).status = .error ∧
       (finalProg (download_thread_social pf url format_id uip ua sid o)).error = some e ∧
       (∀ q ∈ (download_thread_social pf url format_id uip ua sid o).trace,
          q.status ≠ .downloading) ∧
       (∃ r, (download_thread_social pf url format_id uip ua sid o).record = some r ∧
          r.status = "failed" ∧ r.error_message = some e)) := by
  constructor
  · intro url itag format_id uip ua sid o e hreach hc
    simp only [ytReachesRecord] at hreach
    obtain ⟨ytInit, stream, extract, commit1, hooks, socialDl, ytCallbacks, ytDl,
      commit2, commitFail⟩ := o
    simp only at hreach hc
    cases ytInit with
    | error e2 => simp [Except.isOk, Except.toBool] at hreach
    | ok yt =>
      cases stream with
      | none => simp at hreach
      | some st =>
        subst hc
        refine ⟨?_, ?_, ?_, ?_⟩
        · simp only [download_thread, finalProg, errWrites, startingProg,
            List.getLastD_cons, List.getLastD_nil]
        · simp only [download_thread, finalProg, errWrites, startingProg,
            List.getLastD_cons, List.getLastD_nil]
        · intro q hq
          simp only [download_thread, errWrites, startingProg, List.mem_cons,
            List.not_mem_nil, or_false] at hq
          rcases hq with rfl | rfl | rfl <;> simp
        · exact ⟨{ ytRecord url itag uip ua sid yt st with
                   status := "failed", error_message := some e },
            by simp only [download_thread], rfl, rfl⟩
  · intro pf url format_id uip ua sid o e hreach hc
    simp only [socialReachesRecord] at hreach
    cases hgi : get_social_media_info url o.extract with
    | error e2 => rw [hgi] at hreach; simp at hreach
    | ok vi =>
      rw [hgi] at hreach
      simp only at hreach
      rcases Option.isSome_iff_exists.1 hreach with ⟨sel, hfind⟩
      refine ⟨?_, ?_, ?_, ?_⟩
      · simp only [download_thread_social, hgi, hfind, hc, finalProg, errWrites,
          startingProg, List.getLastD_cons, List.getLastD_nil]
      · simp only [download_thread_social, hgi, hfind, hc, finalProg, errWrites,
          startingProg, List.getLastD_cons, List.getLastD_nil]
      · intro q hq
        simp only [download_thread_social, hgi, hfind, hc, errWrites, startingProg,
          List.mem_cons, List.not_mem_nil, or_false] at hq
        rcases hq with rfl | rfl | rfl <;> simp
      · exact ⟨{ socialRecord pf url format_id uip ua sid vi sel with
                 status := "failed", error_message := some e },
          by simp only [download_thread_social, hgi, hfind, hc], rfl, rfl⟩

unseal List.merge List.mergeSort in
theorem c6_record_commit_failure_aborts_download_witness :
    (finalProg (download_thread_social .instagram "https://www.instagram.com/reel/Ab1"
      (some "f1") "ip" "ua" "sess"
      { ytInit := .error "", stream := none,
        extract := .ok { formats := [{ format_id := "f1", vcodec := some "h264",
                                       height := some 720 }] },
        commit1 := some "database is locked", hooks := [], socialDl := .ok "/tmp/v.mp4",
        ytCallbacks := [], ytDl := none, commit2 := none,
        commitFail := none })).status = .error ∧
    (finalProg (download_thread_social .instagram "https://www.instagram.com/reel/Ab1"
      (some "f1") "ip" "ua" "sess"
      { ytInit := .error "", stream := none,
        extract := .ok { formats := [{ format_id := "f1", vcodec := some "h264",
                                       height := some 720 }] },
        commit1 := some "database is locked", hooks := [], socialDl := .ok "/tmp/v.mp4",
        ytCallbacks := [], ytDl := none, commit2 := none,
        commitFail := none })).error = some "database is locked" ∧
    (∀ q ∈ (download_thread_social .instagram "https://www.instagram.com/reel/Ab1"
      (some "f1") "ip" "ua" "sess"
      { ytInit := .error "", stream := none,
        extract := .ok { formats := [{ format_id := "f1", vcodec := some "h264",
                                       height := some 720 }] },
        commit1 := some "database is locked", hooks := [], socialDl := .ok "/tmp/v.mp4",
        ytCallbacks := [], ytDl := none, commit2 := none,
        commitFail := none }).trace, q.status ≠ .downloading) ∧
    (∃ r, (download_thread_social .instagram "https://www.instagram.com/reel/Ab1"
      (some "f1") "ip" "ua" "sess"
      { ytInit := .error "", stream := none,
        extract := .ok { formats := [{ format_id := "f1", vcodec := some "h264",
                                       height := some 720 }] },
        commit1 := some "database is locked", hooks := [], socialDl := .ok "/tmp/v.mp4",
        ytCallbacks := [], ytDl := none, commit2 := none,
        commitFail := none }).record = some r ∧
       r.status = "failed" ∧ r.error_message = some "database is locked") :=
  c6_record_commit_failure_aborts_download.2 .instagram
    "https://www.instagram.com/reel/Ab1" (some "f1") "ip" "ua" "sess"
    { ytInit := .error "", stream := none,
      extract := .ok { formats := [{ format_id := "f1", vcodec := some "h264",
                                     height := some 720 }] },
      commit1 := some "database is locked", hooks := [], socialDl := .ok "/tmp/v.mp4",
      ytCallbacks := [], ytDl := none, commit2 := none, commitFail := none }
    "database is locked" (by decide) rfl

unseal List.merge List.mergeSort in
/-- C6 counterexample: with a failing history-row commit and a backend
that *would* succeed (`socialDl = .ok ...`), the download does not
proceed: the progress record never reaches `downloading` and the final
status is `error`, not the backend-determined outcome.  This refutes
"commit failure here is non-fatal to the download itself". -/
theorem c6_commit_failure_nonfatal_cex :
    ((download_thread .instagram "https://www.instagram.com/reel/Ab1" none (some "f1")
      "ip" "ua" "sess"
      { ytInit := .error "", stream := none,
        extract := .ok { formats := [{ format_id := "f1", vcodec := some "h264",
                                       height := some 720 }] },
        commit1 := some "database is locked", hooks := [], socialDl := .ok "/tmp/v.mp4",
        ytCallbacks := [], ytDl := none, commit2 := none,
        commitFail := none }).trace.all
        (fun p => !(p.status == Status.downloading))) = true ∧
    (finalProg (download_thread .instagram "https://www.instagram.com/reel/Ab1" none
      (some "f1") "ip" "ua" "sess"
      { ytInit := .error "", stream := none,
        extract := .ok { formats := [{ format_id := "f1", vcodec := some "h264",
                                       height := some 720 }] },
        commit1 := some "database is locked", hooks := [], socialDl := .ok "/tmp/v.mp4",
        ytCallbacks := [], ytDl := none, commit2 := none,
        commitFail := none })).status = .error := by
  exact ⟨by decide, by decide⟩

/-! ### The `/download` handler -/

theorem rget_rset_self (reg : Registry) (k : String) (v : Prog) :
    rget (rset reg k v) k = some v := by
  rw [rget, rset, List.find?_cons_of_pos _ (by simp)]
  rfl

/-- An accepted `/download` call hands out exactly the handle
`download_{int(time.time())}`. -/
theorem download_video_ok_handle (reg : Registry) (url0 : String)
    (itag format_id : Option String) (now : Nat) (h msg : String)
    (hok : (download_video reg url0 itag format_id now).resp = .ok h msg) :
    h = downloadIdAt now ∧
    (download_video reg url0 itag format_id now).registry =
      rset reg (downloadIdAt now) startingProg := by
  unfold download_video at hok ⊢
  by_cases hv : (!truthyStr (pyStrip url0) ||
      (!truthyOpt itag && !truthyOpt format_id)) = true
  · rw [if_pos hv] at hok
    exact absurd hok (by simp)
  · rw [if_neg hv] at hok
    rw [if_neg hv]
    cases hd : detect_platform (pyStrip url0) with
    | none =>
      rw [hd] at hok
      exact absurd hok (by simp)
    | some pf =>
      rw [hd] at hok
      simp only [Resp.ok.injEq] at hok
      exact ⟨hok.1.symm, rfl⟩

/-- C1: every accepted `/download` request inserts the
`{'progress': 0, 'status': 'starting'}` record under the returned handle
before the response is produced, so an immediate poll returns that
record and never `not_found`. -/
theorem c1_accepted_request_registered_before_return :
    ∀ (reg : Registry) (url0 : String) (itag format_id : Option String) (now : Nat)
      (h msg : String),
      (download_video reg url0 itag format_id now).resp = .ok h msg →
      rget (download_video reg url0 itag format_id now).registry h = some startingProg ∧
      (get_download_progress (download_video reg url0 itag format_id now).registry h).status
          = .starting ∧
      (get_download_progress (download_video reg url0 itag format_id now).registry h).status
          ≠ .not_found := by
  intro reg url0 itag format_id now h msg hok
  obtain ⟨rfl, hreg⟩ := download_video_ok_handle reg url0 itag format_id now _ msg hok
  rw [hreg]
  refine ⟨rget_rset_self reg _ _, ?_, ?_⟩
  · rw [get_download_progress, rget_rset_self reg _ _]
    rfl
  · rw [get_download_progress, rget_rset_self reg _ _]
    decide

theorem c1_accepted_request_registered_before_return_witness :
    (download_video [] "https://www.youtube.com/watch?v=dQw4w9WgXcQ" (some "18") none
      1700000000).resp = .ok "download_1700000000" "Download started" ∧
    rget (download_video [] "https://www.youtube.com/watch?v=dQw4w9WgXcQ" (some "18") none
      1700000000).registry "download_1700000000" = some startingProg ∧
    (get_download_progress (download_video [] "https://www.youtube.com/watch?v=dQw4w9WgXcQ"
      (some "18") none 1700000000).registry "download_1700000000").status ≠ .not_found :=
  ⟨by decide,
   (c1_accepted_request_registered_before_return [] _ (some "18") none 1700000000
     "download_1700000000" "Download started" (by decide)).1,
   (c1_accepted_request_registered_before_return [] _ (some "18") none 1700000000
     "download_1700000000" "Download started" (by decide)).2.2⟩

/-- C5 counterexample: two distinct accepted requests issued in the same
integer second receive the *same* handle (`download_{int(time.time())}`
has one-second resolution), refuting "the handles issued are distinct
and a handle is never reused". -/
theorem c5_same_second_handle_collision_cex :
    (download_video [] "https://www.youtube.com/watch?v=dQw4w9WgXcQ" (some "18") none
      1700000000).resp = .ok "download_1700000000" "Download started" ∧
    (download_video [] "https://www.instagram.com/reel/Ab1" none (some "f1")
      1700000000).resp = .ok "download_1700000000" "Download started" ∧
    "https://www.youtube.com/watch?v=dQw4w9WgXcQ" ≠ "https://www.instagram.com/reel/Ab1" := by
  exact ⟨by decide, by decide, by decide⟩

/-- C5 (amended): handles are distinct whenever the two accepted
requests are issued at distinct integer-second timestamps; two requests
accepted within the same second share one handle (see the
counterexample). -/
theorem c5_distinct_seconds_distinct_handles :
    ∀ (reg1 reg2 : Registry) (u1 u2 : String) (i1 f1 i2 f2 : Option String)
      (t1 t2 : Nat) (h1 h2 m1 m2 : String),
      t1 ≠ t2 →
      (download_video reg1 u1 i1 f1 t1).resp = .ok h1 m1 →
      (download_video reg2 u2 i2 f2 t2).resp = .ok h2 m2 →
      h1 ≠ h2 := by
  intro reg1 reg2 u1 u2 i1 f1 i2 f2 t1 t2 h1 h2 m1 m2 hne hok1 hok2
  obtain ⟨rfl, -⟩ := download_video_ok_handle reg1 u1 i1 f1 t1 _ m1 hok1
  obtain ⟨rfl, -⟩ := download_video_ok_handle reg2 u2 i2 f2 t2 _ m2 hok2
  intro hcontra
  exact hne (downloadIdAt_injective t1 t2 hcontra)

theorem c5_distinct_seconds_distinct_handles_witness :
    (1700000000 : Nat) ≠ 1700000001 ∧
    (download_video [] "https://www.youtube.com/watch?v=dQw4w9WgXcQ" (some "18") none
      1700000000).resp = .ok "download_1700000000" "Download started" ∧
    (download_video [] "https://www.instagram.com/reel/Ab1" none (some "f1")
      1700000001).resp = .ok "download_1700000001" "Download started" ∧
    "download_1700000000" ≠ "download_1700000001" :=
  ⟨by decide, by decide, by decide,
   c5_distinct_seconds_distinct_handles [] [] "https://www.youtube.com/watch?v=dQw4w9WgXcQ"
     "https://www.instagram.com/reel/Ab1" (some "18") none none (some "f1")
     1700000000 1700000001 "download_1700000000" "download_1700000001"
     "Download started" "Download started" (by decide) (by decide) (by decide)⟩

/-- C7: a `/download` request whose URL does not classify to YouTube,
Instagram, or Facebook, or that is missing the URL or both selector
fields, fails synchronously with a 400 response; no handle is
allocated, the registry is unchanged, and no background thread is
started. -/
theorem c7_validation_errors_reject_without_side_effects :
    ∀ (reg : Registry) (url0 : String) (itag format_id : Option String) (now : Nat),
      (truthyStr (pyStrip url0) = false ∨
       (truthyOpt itag = false ∧ truthyOpt format_id = false) ∨
       detect_platform (pyStrip url0) = none) →
      (∃ m, (download_video reg url0 itag format_id now).resp = .err 400 m) ∧
      (download_video reg url0 itag format_id now).registry = reg ∧
      (download_video reg url0 itag format_id now).thread_started = false := by
  intro reg url0 itag format_id now hbad
  unfold download_video
  by_cases hv : (!truthyStr (pyStrip url0) ||
      (!truthyOpt itag && !truthyOpt format_id)) = true
  · rw [if_pos hv]
    exact ⟨⟨_, rfl⟩, rfl, rfl⟩
  · rw [if_neg hv]
    have hd : detect_platform (pyStrip url0) = none := by
      rcases hbad with h | ⟨h1, h2⟩ | h
      · exact absurd (by simp [h]) hv
      · exact absurd (by simp [h1, h2]) hv
      · exact h
    rw [hd]
    exact ⟨⟨_, rfl⟩, rfl, rfl⟩

theorem c7_validation_errors_reject_without_side_effects_witness :
    (truthyStr (pyStrip "https://example.com/video") = false ∨
     (truthyOpt (some "18") = false ∧ truthyOpt (none : Option String) = false) ∨
     detect_platform (pyStrip "https://example.com/video") = none) ∧
    (∃ m, (download_video [] "https://example.com/video" (some "18") none
      1700000000).resp = .err 400 m) ∧
    (download_video [] "https://example.com/video" (some "18") none
      1700000000).registry = [] ∧
    (download_video [] "https://example.com/video" (some "18") none
      1700000000).thread_started = false :=
  ⟨Or.inr (Or.inr (by decide)),
   c7_validation_errors_reject_without_side_effects [] "https://example.com/video"
     (some "18") none 1700000000 (Or.inr (Or.inr (by decide)))⟩

/-! ### The `/download_file` endpoint -/

theorem truthyOpt_true_iff (o : Option String) :
    truthyOpt o = true ↔ ∃ s, o = some s ∧ s ≠ "" := by
  cases o <;> simp [truthyOpt]

/-- C9: `/download_file/{handle}` answers 404 whenever the handle is
unknown, its status is not `completed`, or the recorded path is absent
or missing on disk; and it streams a file — with attachment disposition
and `application/octet-stream` — only when the status is `completed`
and the recorded file exists, so a partial (non-completed) download is
never served. -/
theorem c9_download_file_only_serves_completed :
    ∀ (reg : Registry) (fileExists : String → Bool) (send_ok : Bool) (id : String),
      (∀ fp dn mt att, download_file reg fileExists send_ok id = .served fp dn mt att →
        ∃ p, rget reg id = some p ∧ p.status = .completed ∧ p.filepath = some fp ∧
          fileExists fp = true ∧ att = true ∧ mt = "application/octet-stream" ∧
          dn = p.filename) ∧
      (rget reg id = none →
        download_file reg fileExists send_ok id =
          .notFound "Download not completed or not found") ∧
      (∀ p, rget reg id = some p → p.status ≠ .completed →
        download_file reg fileExists send_ok id =
          .notFound "Download not completed or not found") ∧
      (∀ p, rget reg id = some p → p.status = .completed →
        (truthyOpt p.filepath = false ∨ fileExists ((p.filepath).getD "") = false) →
        download_file reg fileExists send_ok id = .notFound "File not found") := by
  intro reg fileExists send_ok id
  refine ⟨?_, ?_, ?_, ?_⟩
  · intro fp dn mt att hserv
    unfold download_file at hserv
    cases hro : rget reg id with
    | none => rw [hro] at hserv; exact absurd hserv (by simp)
    | some p =>
      rw [hro] at hserv
      dsimp only at hserv
      by_cases hst : p.status = .completed
      · rw [if_neg (not_not_intro hst)] at hserv
        by_cases htr : truthyOpt p.filepath = true
        · rw [if_neg (by simp [htr])] at hserv
          by_cases hex : fileExists ((p.filepath).getD "") = true
          · rw [if_neg (by simp [hex])] at hserv
            by_cases hso : send_ok = true
            · rw [if_pos hso] at hserv
              simp only [FileResp.served.injEq] at hserv
              obtain ⟨hfp, hdn, hmt, hatt⟩ := hserv
              obtain ⟨s, hsome, hne⟩ := (truthyOpt_true_iff _).1 htr
              refine ⟨p, rfl, hst, ?_, ?_, hatt.symm, hmt.symm, hdn.symm⟩
              · rw [hsome]
                rw [← hfp, hsome]
                rfl
              · rw [← hfp]
                exact hex
            · rw [if_neg hso] at hserv
              exact absurd hserv (by simp)
          · have hex2 : fileExists ((p.filepath).getD "") = false := by simpa using hex
            rw [if_pos (by simp [hex2])] at hserv
            exact absurd hserv (by simp)
        · have htr2 : truthyOpt p.filepath = false := by simpa using htr
          rw [if_pos (by simp [htr2])] at hserv
          exact absurd hserv (by simp)
      · rw [if_pos hst] at hserv
        exact absurd hserv (by simp)
  · intro hro
    unfold download_file
    rw [hro]
  · intro p hro hst
    unfold download_file
    rw [hro]
    dsimp only
    rw [if_pos hst]
  · intro p hro hst hbad
    unfold download_file
    rw [hro]
    dsimp only
    rw [if_neg (not_not_intro hst)]
    rcases hbad with hb | hb
    · rw [if_pos (by simp [hb])]
    · by_cases htr : truthyOpt p.filepath = true
      · rw [if_neg (by simp [htr]), if_pos (by simp [hb])]
      · have htr2 : truthyOpt p.filepath = false := by simpa using htr
        rw [if_pos (by simp [htr2])]

theorem c9_download_file_only_serves_completed_witness :
    (∃ p, rget [("download_1", { progress := 100, status := Status.completed, error := none, filename := some "v.mp4", filepath := some "/tmp/v.mp4", record_id := none })] "download_1" = some p ∧ p.status = .completed) ∧
    download_file [("download_1", { progress := 100, status := Status.completed, error := none, filename := some "v.mp4", filepath := some "/tmp/v.mp4", record_id := none })] (fun fp => fp == "/tmp/v.mp4") true "download_1" = .served "/tmp/v.mp4" (some "v.mp4") "application/octet-stream" true ∧
    download_file [("download_2", { progress := 40, status := Status.downloading, error := none, filename := none, filepath := none, record_id := none })] (fun _ => true) true "download_2" = .notFound "Download not completed or not found" :=
  ⟨⟨_, rfl, rfl⟩, by decide,
   (c9_download_file_only_serves_completed
       [("download_2", { progress := 40, status := Status.downloading, error := none, filename := none, filepath := none, record_id := none })]
       (fun _ => true) true "download_2").2.2.1
     { progress := 40, status := Status.downloading, error := none, filename := none, filepath := none, record_id := none } (by decide) (by decide)⟩

/-- C10: the `/download` validation only checks the platform and that at
least one selector field is truthy — it never checks that the selector
kind matches the platform.  An Instagram/Facebook URL submitted with
only an `itag` (no `format_id`) is accepted and a handle is returned;
the background task then finds no option whose `format_id` equals
`None`, terminates with ProgressRecord status=Error and detail
"Selected quality not available", and never creates a history row — no
synchronous 400 is produced. -/
theorem c10_itag_only_social_request_accepted_then_errors :
    ∀ (reg : Registry) (url0 : String) (itag : Option String) (now : Nat)
      (uip ua sid : String) (o : Oracle) (pf : Platform) (raw : RawInfo),
      detect_platform (pyStrip url0) = some pf → pf ≠ .youtube →
      truthyOpt itag = true → o.extract = .ok raw →
      (∃ msg, (download_video reg url0 itag none now).resp = .ok (downloadIdAt now) msg) ∧
      (finalProg (download_thread pf (pyStrip url0) itag none uip ua sid o)).status
          = .error ∧
      (finalProg (download_thread pf (pyStrip url0) itag none uip ua sid o)).error
          = some "Selected quality not available" ∧
      (download_thread pf (pyStrip url0) itag none uip ua sid o).record = none := by
  intro reg url0 itag now uip ua sid o pf raw hd hpf hitag hex
  have hne : truthyStr (pyStrip url0) = true := by
    by_contra hc
    have hempty : pyStrip url0 = "" := by
      simpa [truthyStr] using hc
    have h0 : detect_platform "" = none := by decide
    rw [hempty, h0] at hd
    exact Option.noConfusion hd
  have hgi : get_social_media_info (pyStrip url0) o.extract =
      .ok { title := raw.title.getD "Unknown Title", length := raw.duration.getD 0,
            views := raw.view_count.getD 0, thumbnail_url := raw.thumbnail.getD "",
            author := raw.uploader.getD "Unknown",
            quality_options := socialQualityOptions pf raw.formats, platform := pf } := by
    rw [get_social_media_info, hd, hex]
  have hfind : ∀ (l : List SocQOpt),
      l.find? (fun opt => some opt.format_id == (none : Option String)) = none := by
    intro l
    apply List.find?_eq_none.2
    intro x _
    simp
  constructor
  · refine ⟨"Download started", ?_⟩
    unfold download_video
    rw [if_neg (by simp [hne, hitag]), hd]
  · cases pf with
    | youtube => exact absurd rfl hpf
    | instagram =>
      simp only [download_thread, download_thread_social, hgi, hfind, finalProg,
        errWrites, startingProg, List.getLastD_cons, List.getLastD_nil]
      refine ⟨?_, ?_, ?_⟩ <;> trivial
    | facebook =>
      simp only [download_thread, download_thread_social, hgi, hfind, finalProg,
        errWrites, startingProg, List.getLastD_cons, List.getLastD_nil]
      refine ⟨?_, ?_, ?_⟩ <;> trivial

theorem c10_itag_only_social_request_accepted_then_errors_witness :
    detect_platform (pyStrip "https://www.instagram.com/reel/Ab1") = some .instagram ∧
    (∃ msg, (download_video [] "https://www.instagram.com/reel/Ab1" (some "22") none
      1700000000).resp = .ok (downloadIdAt 1700000000) msg) ∧
    (finalProg (download_thread .instagram (pyStrip "https://www.instagram.com/reel/Ab1")
      (some "22") none "ip" "ua" "sess"
      { ytInit := .error "", stream := none,
        extract := .ok { formats := [{ format_id := "f1", vcodec := some "h264", height := some 720 }] },
        commit1 := none, hooks := [], socialDl := .ok "/tmp/v.mp4", ytCallbacks := [],
        ytDl := none, commit2 := none, commitFail := none })).status = .error ∧
    (finalProg (download_thread .instagram (pyStrip "https://www.instagram.com/reel/Ab1")
      (some "22") none "ip" "ua" "sess"
      { ytInit := .error "", stream := none,
        extract := .ok { formats := [{ format_id := "f1", vcodec := some "h264", height := some 720 }] },
        commit1 := none, hooks := [], socialDl := .ok "/tmp/v.mp4", ytCallbacks := [],
        ytDl := none, commit2 := none, commitFail := none })).error
        = some "Selected quality not available" :=
  ⟨by decide,
   (c10_itag_only_social_request_accepted_then_errors [] "https://www.instagram.com/reel/Ab1"
      (some "22") 1700000000 "ip" "ua" "sess"
      { ytInit := .error "", stream := none,
        extract := .ok { formats := [{ format_id := "f1", vcodec := some "h264", height := some 720 }] },
        commit1 := none, hooks := [], socialDl := .ok "/tmp/v.mp4", ytCallbacks := [],
        ytDl := none, commit2 := none, commitFail := none } .instagram
      { formats := [{ format_id := "f1", vcodec := some "h264", height := some 720 }] }
      (by decide) (by decide) (by decide) rfl).1,
   (c10_itag_only_social_request_accepted_then_errors [] "https://www.instagram.com/reel/Ab1"
      (some "22") 1700000000 "ip" "ua" "sess"
      { ytInit := .error "", stream := none,
        extract := .ok { formats := [{ format_id := "f1", vcodec := some "h264", height := some 720 }] },
        commit1 := none, hooks := [], socialDl := .ok "/tmp/v.mp4", ytCallbacks := [],
        ytDl := none, commit2 := none, commitFail := none } .instagram
      { formats := [{ format_id := "f1", vcodec := some "h264", height := some 720 }] }
      (by decide) (by decide) (by decide) rfl).2.1,
   (c10_itag_only_social_request_accepted_then_errors [] "https://www.instagram.com/reel/Ab1"
      (some "22") 1700000000 "ip" "ua" "sess"
      { ytInit := .error "", stream := none,
        extract := .ok { formats := [{ format_id := "f1", vcodec := some "h264", height := some 720 }] },
        commit1 := none, hooks := [], socialDl := .ok "/tmp/v.mp4", ytCallbacks := [],
        ytDl := none, commit2 := none, commitFail := none } .instagram
      { formats := [{ format_id := "f1", vcodec := some "h264", height := some 720 }] }
      (by decide) (by decide) (by decide) rfl).2.2.1⟩

/-! ### Format deduplication (C8) -/

/-- C8 (amended): both resolvers keep at most one video entry per
distinct resolution, and the entry kept is the first-seen one (the
`find?` of the raw list).  First-seen *order* is preserved only on the
YouTube path (stated as a list equality); the Instagram/Facebook path
re-sorts the final list by descending numeric quality (line 177), so
there only the multiset is preserved (stated as a permutation — see the
counterexample for the order violation). -/
theorem c8_dedup_by_resolution_first_seen :
    (∀ (pf : Platform) (formats : List Fmt),
      (newKeys heightKey (videoFormatsOf formats) []).Nodup ∧
      List.Perm
        ((socialQualityOptions pf formats).filter (fun q => q.type == "video"))
        ((newKeys heightKey (videoFormatsOf formats) []).filterMap
          (fun h => ((videoFormatsOf formats).find? (fun f => heightKey f == some h)).map
            (fun f => mkVideoOpt pf f h)))) ∧
    (∀ (progressive adaptive audio : List PStream),
      (newKeys resKey progressive [] ++
        newKeys resKey adaptive (seenAfter resKey progressive [])).Nodup ∧
      (ytQualityOptions progressive adaptive audio).filter
          (fun q => q.type == "video" || q.type == "video_adaptive") =
        (newKeys resKey progressive []).filterMap
          (fun r => (progressive.find? (fun f => resKey f == some r)).map
            (fun f => mkProgressiveOpt f r)) ++
        (newKeys resKey adaptive (seenAfter resKey progressive [])).filterMap
          (fun r => (adaptive.find? (fun f => resKey f == some r)).map
            (fun f => mkAdaptiveOpt f r))) := by
  constructor
  · intro pf formats
    refine ⟨newKeys_nodup _ _ _, ?_⟩
    have hQ : socialQualityOptions pf formats =
        (dedupLoop heightKey (mkVideoOpt pf) (videoFormatsOf formats) [] ++
          (match audioFormatsOf formats with
           | [] => []
           | a :: rest => [mkAudioOpt pf (pymaxBy (fun f => f.abr.getD 0) a rest)])).mergeSort
          (fun a b => decide (socialSortKey b ≤ socialSortKey a)) := rfl
    have hfil := (List.mergeSort_perm
      (dedupLoop heightKey (mkVideoOpt pf) (videoFormatsOf formats) [] ++
        (match audioFormatsOf formats with
         | [] => []
         | a :: rest => [mkAudioOpt pf (pymaxBy (fun f => f.abr.getD 0) a rest)]))
      (fun a b => decide (socialSortKey b ≤ socialSortKey a))).filter
        (fun q => q.type == "video")
    rw [List.filter_append] at hfil
    have hv : (dedupLoop heightKey (mkVideoOpt pf) (videoFormatsOf formats) []).filter
        (fun q => q.type == "video") =
        dedupLoop heightKey (mkVideoOpt pf) (videoFormatsOf formats) [] := by
      apply List.filter_eq_self.2
      intro q hq
      rcases dedupLoop_mem heightKey (mkVideoOpt pf) _ _ _ hq with ⟨f, h, _, _, rfl⟩
      rfl
    have ha : ((match audioFormatsOf formats with
        | [] => []
        | a :: rest => [mkAudioOpt pf (pymaxBy (fun f => f.abr.getD 0) a rest)] :
          List SocQOpt)).filter
          (fun q => q.type == "video") = [] := by
      cases audioFormatsOf formats with
      | nil => rfl
      | cons a rest => rfl
    rw [hv, ha, List.append_nil] at hfil
    nth_rewrite 2 [dedupLoop_eq_filterMap heightKey (mkVideoOpt pf)] at hfil
    rw [hQ]
    exact hfil
  · intro progressive adaptive audio
    constructor
    · refine List.Nodup.append (newKeys_nodup _ _ _) (newKeys_nodup _ _ _) ?_
      intro x hx1 hx2
      have h1 : x ∈ seenAfter resKey progressive [] :=
        (seenAfter_mem resKey progressive [] x).2 (Or.inl hx1)
      exact newKeys_not_mem resKey adaptive (seenAfter resKey progressive []) x hx2 h1
    · have hQ : ytQualityOptions progressive adaptive audio =
          dedupLoop resKey mkProgressiveOpt progressive [] ++
          dedupLoop resKey mkAdaptiveOpt adaptive (seenAfter resKey progressive []) ++
          (if !((audio.filter (fun s => truthyOpt s.abr)).map
                (fun s => mkAudioQual s (s.abr.getD ""))).isEmpty then
             (((audio.filter (fun s => truthyOpt s.abr)).map
                (fun s => mkAudioQual s (s.abr.getD ""))).mergeSort
                  (fun a b => decide (ytAudioKey b ≤ ytAudioKey a))).take 3
           else []) ++
          (if ((audio.filter (fun s => truthyOpt s.abr)).map
                (fun s => mkAudioQual s (s.abr.getD ""))).isEmpty && !audio.isEmpty then
             match audio with
             | [] => []
             | s :: _ => [{ itag := s.itag, quality := "Audio Only", type := "audio",
                            filesize := s.filesize.getD 0,
                            format := some (pyOr s.subtype "mp4") }]
           else []) := rfl
      rw [hQ, List.filter_append, List.filter_append, List.filter_append]
      have hp : (dedupLoop resKey mkProgressiveOpt progressive []).filter
          (fun q => q.type == "video" || q.type == "video_adaptive") =
          dedupLoop resKey mkProgressiveOpt progressive [] := by
        apply List.filter_eq_self.2
        intro q hq
        rcases dedupLoop_mem resKey mkProgressiveOpt _ _ _ hq with ⟨f, r, _, _, rfl⟩
        rfl
      have hadap : (dedupLoop resKey mkAdaptiveOpt adaptive
            (seenAfter resKey progressive [])).filter
          (fun q => q.type == "video" || q.type == "video_adaptive") =
          dedupLoop resKey mkAdaptiveOpt adaptive (seenAfter resKey progressive []) := by
        apply List.filter_eq_self.2
        intro q hq
        rcases dedupLoop_mem resKey mkAdaptiveOpt _ _ _ hq with ⟨f, r, _, _, rfl⟩
        rfl
      have haudio : (if !((audio.filter (fun s => truthyOpt s.abr)).map
              (fun s => mkAudioQual s (s.abr.getD ""))).isEmpty then
            (((audio.filter (fun s => truthyOpt s.abr)).map
              (fun s => mkAudioQual s (s.abr.getD ""))).mergeSort
                (fun a b => decide (ytAudioKey b ≤ ytAudioKey a))).take 3
          else ([] : List YtQOpt)).filter
            (fun q => q.type == "video" || q.type == "video_adaptive")
          = [] := by
        split
        · apply List.filter_eq_nil_iff.2
          intro q hq
          have hq2 := List.take_subset _ _ hq
          have hq3 := (List.mergeSort_perm ((audio.filter (fun s => truthyOpt s.abr)).map
            (fun s => mkAudioQual s (s.abr.getD "")))
            (fun a b => decide (ytAudioKey b ≤ ytAudioKey a))).mem_iff.1 hq2
          rcases List.mem_map.1 hq3 with ⟨st, _, rfl⟩
          simp [mkAudioQual]
        · rfl
      have hfb : (if ((audio.filter (fun s => truthyOpt s.abr)).map
              (fun s => mkAudioQual s (s.abr.getD ""))).isEmpty && !audio.isEmpty then
            match audio with
            | [] => ([] : List YtQOpt)
            | s :: _ => [{ itag := s.itag, quality := "Audio Only", type := "audio",
                           filesize := s.filesize.getD 0,
                           format := some (pyOr s.subtype "mp4") }]
          else []).filter (fun q => q.type == "video" || q.type == "video_adaptive")
          = [] := by
        split
        · cases audio with
          | nil => rfl
          | cons s rest => rfl
        · rfl
      rw [hp, hadap, haudio, hfb, List.append_nil, List.append_nil,
        dedupLoop_eq_filterMap, dedupLoop_eq_filterMap]

unseal List.merge List.mergeSort in
/-- C8 counterexample: a raw format list with heights `[360, 720]` has
first-seen order `["360p", "720p"]` (the deduplication loop's output),
but the endpoint's resolved list is sorted descending (line 177) and
reads `["720p", "360p"]` — first-seen order is *not* preserved in the
output list. -/
theorem c8_first_seen_order_not_preserved_cex :
    ((socialQualityOptions .instagram
        [{ format_id := "a", vcodec := some "h264", height := some 360 },
         { format_id := "b", vcodec := some "h264", height := some 720 }]).map
      (fun q => q.quality)) = ["720p", "360p"] ∧
    ((dedupLoop heightKey (mkVideoOpt .instagram)
        (videoFormatsOf
          [{ format_id := "a", vcodec := some "h264", height := some 360 },
           { format_id := "b", vcodec := some "h264", height := some 720 }]) []).map
      (fun q => q.quality)) = ["360p", "720p"] ∧
    (["720p", "360p"] : List String) ≠ ["360p", "720p"] := by
  exact ⟨by decide, by decide, by decide⟩

end Svd
